import Mathlib

/-!
# TargetedMovementGenerator (src/game/TargetedMovementGenerator.cpp)

A shallow embedding of the chase / follow movement generators.

* Floating point values (coordinates, offset, angle, radii, the configured
  recalculation range) are rationals; NaN and infinities are not represented. The one
  floating point addition of the file, the sum at line 129, is the oracle
  `Env.float_add`, so that its rounding is the machine's; the product `2 * i_offset` of
  line 45 is a doubling, which binary floating point performs without rounding.
* The generator fields live in `Gen`, the owner unit in `Owner`.  Everything the
  code reads from the target, the world configuration and the external
  collaborators (path planner, motion executor, combat) is an observation or an
  oracle in `Env`, supplied per call.
* Calls that act on a collaborator (planner allocation and query, launch of the motion
  executor, `StopMoving`, `SetInFront`, `Attack`, `SetWalk`, `UpdateSpeed`) and every
  invocation of the replan operation and of the arrival hook are appended to a call
  log (`St.log`); unit state bits are written in place.
-/

namespace TargetedMovement

/-! ## Data model -/

/-- Template parameter `T`: the class of the owner. -/
inductive OwnerKind
  | Player
  | Creature
deriving DecidableEq, Repr

/-- Template parameter `D`: the behaviour specialisation. -/
inductive Behaviour
  | Chase
  | Follow
deriving DecidableEq, Repr

/-- Object type ids compared in the source (`owner.GetTypeId() == TYPEID_UNIT`). -/
inductive TypeId
  | TYPEID_UNIT
  | TYPEID_PLAYER
deriving DecidableEq, Repr

/-- A `Creature` object has type id `TYPEID_UNIT`, a `Player` object `TYPEID_PLAYER`. -/
def GetTypeId : OwnerKind → TypeId
  | OwnerKind.Player => TypeId.TYPEID_PLAYER
  | OwnerKind.Creature => TypeId.TYPEID_UNIT

/-- The three movement types refreshed by the follow speed sync. -/
inductive UnitMoveType
  | MOVE_RUN
  | MOVE_WALK
  | MOVE_SWIM
deriving DecidableEq, Repr

/-- Stand-in for `G3D::Vector3`. -/
structure Vector3 where
  x : ℚ
  y : ℚ
  z : ℚ
deriving DecidableEq, Repr

/-- The planner object `PathFinder` as far as the generator reads it:
`getPath()`, `getEndPosition()`, `getPathType()`. -/
structure PathFinder where
  getPath : List Vector3
  getEndPosition : Vector3
  getPathType : Nat
deriving DecidableEq, Repr

/-- The owner's `movespline` as far as the generator reads it. -/
structure MoveSpline where
  Finalized : Bool
  FinalDestination : Vector3
deriving DecidableEq, Repr

/-- Modelled from the spec: the recheck timer type (declared in a header that is not
part of the sources at hand): a countdown that is decremented by the elapsed time,
has lapsed once it is no longer positive, and is reset to a fixed interval. -/
structure ShortTimeTracker where
  i_expiryTime : Int
deriving DecidableEq, Repr

/-- Timer decrement `i_recheckDistance.Update(time_diff)`. -/
def ShortTimeTracker.Update (t : ShortTimeTracker) (diff : Nat) : ShortTimeTracker :=
  { i_expiryTime := t.i_expiryTime - (diff : Int) }

/-- Timer test `i_recheckDistance.Passed()`. -/
def ShortTimeTracker.Passed (t : ShortTimeTracker) : Bool :=
  decide (t.i_expiryTime ≤ 0)

/-- Timer reset `i_recheckDistance.Reset(interval)`. -/
def ShortTimeTracker.Reset (_t : ShortTimeTracker) (interval : Int) : ShortTimeTracker :=
  { i_expiryTime := interval }

/-- Constants of headers that are not part of the sources at hand; they are
parameters of the development. -/
structure Consts where
  UNIT_STAT_CHASE : Nat
  UNIT_STAT_FOLLOW : Nat
  UNIT_STAT_CHASE_MOVE : Nat
  UNIT_STAT_FOLLOW_MOVE : Nat
  UNIT_STAT_NOT_MOVE : Nat
  PATHFIND_NOPATH : Nat
deriving DecidableEq, Repr

/-- The owner unit, as far as the generators read or write it. `IsPet` and `CanFly`
are only queried for a `Creature`. The three query results `isAlive`,
`IsNonMeleeSpellCasted` (the call `IsNonMeleeSpellCasted(false, false, true)`) and
`IsStopped` are the values these calls return on the owner. `GetOrientation` is the
owner's facing, which the generators never read and only `SetInFront` writes. -/
structure Owner where
  m_state : Nat
  isAlive : Bool
  IsNonMeleeSpellCasted : Bool
  IsStopped : Bool
  movespline : MoveSpline
  GetPosition : Vector3
  GetObjectBoundingRadius : ℚ
  IsPet : Bool
  CanFly : Bool
  GetOwnerGuid : Nat
  GetOrientation : ℚ
deriving DecidableEq, Repr

/-- The generator fields (`i_target` is observed through `Env`). -/
structure Gen where
  i_path : Option PathFinder
  i_offset : ℚ
  i_angle : ℚ
  i_recheckDistance : ShortTimeTracker
  i_targetReached : Bool
  m_speedChanged : Bool
deriving DecidableEq, Repr

/-- Entries of the call log. -/
inductive Event
  | call_setTargetLocation (updateDestination : Bool)
  | new_PathFinder
  | calculate (dest : Vector3) (forceDest : Bool)
  | Launch (path : List Vector3) (walk : Bool)
  | StopMoving
  | SetInFront
  | call_reachTarget
  | Attack
  | SetWalk (enable : Bool) (asDefault : Bool)
  | UpdateSpeed (mtype : UnitMoveType) (forced : Bool)
deriving DecidableEq, Repr

/-- What one call observes of the target, the world and the external collaborators.

* `i_target_isValid`, `i_target_IsInWorld`, `target_IsWalking`, `target_GetObjectGuid`,
  `target_position`: the target handle and the target behind it;
* `IsWithinDistInMap d`: result of `i_target->IsWithinDistInMap(&owner, d)`;
* `GetContactPoint`: point returned by `i_target->GetContactPoint(&owner, x, y, z)`;
* `GetClosePoint r d a`: point returned by
  `i_target->GetClosePoint(x, y, z, r, d, a, &owner)`;
* `lostTarget`: result of the behaviour's `_lostTarget(owner)`;
* `HasInArc`: result of `owner.HasInArc(0.01f, target)`;
* `CanReachWithMeleeAttack`: result of `owner.CanReachWithMeleeAttack(target)`;
* `CONFIG_RANGE`: `sWorld.getConfig(CONFIG_FLOAT_RATE_TARGET_POS_RECALCULATION_RANGE)`;
* `float_add a b`: the single precision sum `a + b` as the machine computes it, that is
  the exact sum rounded to the nearest `float`;
* `new_PathFinder`: the planner object built by `new PathFinder(&owner)`;
* `calculate p d f`: the planner object `p` after `p->calculate(d.x, d.y, d.z, f)`;
* `Launch o path walk`: the owner's spline after `MovebyPath(path)`,
  `SetWalk(walk)`, `Launch()` on a `MoveSplineInit` of owner `o`;
* `StopMoving`, `SetInFront`, `Attack`, `SetWalk`, `UpdateSpeed`: the owner after
  the call of that name. -/
structure Env where
  i_target_isValid : Bool
  i_target_IsInWorld : Bool
  target_IsWalking : Bool
  target_GetObjectGuid : Nat
  target_position : Vector3
  IsWithinDistInMap : ℚ → Bool
  GetContactPoint : Vector3
  GetClosePoint : ℚ → ℚ → ℚ → Vector3
  lostTarget : Bool
  HasInArc : Bool
  CanReachWithMeleeAttack : Bool
  CONFIG_RANGE : ℚ
  float_add : ℚ → ℚ → ℚ
  new_PathFinder : PathFinder
  calculate : PathFinder → Vector3 → Bool → PathFinder
  Launch : Owner → List Vector3 → Bool → MoveSpline
  StopMoving : Owner → Owner
  SetInFront : Owner → Owner
  Attack : Owner → Owner
  SetWalk : Owner → Bool → Bool → Owner
  UpdateSpeed : Owner → UnitMoveType → Bool → Owner

/-- Program state threaded through the generator methods. -/
structure St where
  gen : Gen
  owner : Owner
  log : List Event
deriving DecidableEq, Repr

/-! ## Unit state bits (32 bit mask `m_state`) -/

/-- Modelled from the spec: `Unit::hasUnitState(f)`, true when some bit of `f` is set. -/
def hasUnitState (o : Owner) (f : Nat) : Bool :=
  (o.m_state &&& f) != 0

/-- Modelled from the spec: `Unit::addUnitState(f)`, `m_state |= f`. -/
def addUnitState (o : Owner) (f : Nat) : Owner :=
  { o with m_state := o.m_state ||| f }

/-- Modelled from the spec: `Unit::clearUnitState(f)`, `m_state &= ~f` on 32 bits. -/
def clearUnitState (o : Owner) (f : Nat) : Owner :=
  { o with m_state := o.m_state &&& (0xFFFFFFFF ^^^ f) }

/-- The behaviour's "moving" state bit. -/
def UNIT_STAT_MOVE (c : Consts) : Behaviour → Nat
  | Behaviour.Chase => c.UNIT_STAT_CHASE_MOVE
  | Behaviour.Follow => c.UNIT_STAT_FOLLOW_MOVE

/-- Modelled from the spec: `D::_addUnitStateMove` (declared in the header) sets the
behaviour's "moving" state bit. -/
def _addUnitStateMove (c : Consts) (D : Behaviour) (o : Owner) : Owner :=
  addUnitState o (UNIT_STAT_MOVE c D)

/-- Modelled from the spec: `D::_clearUnitStateMove` (declared in the header) clears
the behaviour's "moving" state bit. -/
def _clearUnitStateMove (c : Consts) (D : Behaviour) (o : Owner) : Owner :=
  clearUnitState o (UNIT_STAT_MOVE c D)

/-! ## Distance tests of the target -/

/-- Square of the horizontal distance between two points. -/
def distSq2d (a b : Vector3) : ℚ :=
  (a.x - b.x) ^ 2 + (a.y - b.y) ^ 2

/-- Square of the spatial distance between two points. -/
def distSq3d (a b : Vector3) : ℚ :=
  (a.x - b.x) ^ 2 + (a.y - b.y) ^ 2 + (a.z - b.z) ^ 2

/-- Modelled from the spec: `i_target->IsWithinDist2d(x, y, dist)`, missing from the
sources at hand. The target is within `dist` of the point when the horizontal
distance is at most `dist` (the spec makes the complement the strict comparison
`distance > dist`). Computed on squares. -/
def IsWithinDist2d (env : Env) (p : Vector3) (dist2compare : ℚ) : Bool :=
  decide (0 ≤ dist2compare ∧ distSq2d env.target_position p ≤ dist2compare ^ 2)

/-- Modelled from the spec: `i_target->IsWithinDist3d(x, y, z, dist)`, missing from
the sources at hand; as `IsWithinDist2d` with the spatial distance. -/
def IsWithinDist3d (env : Env) (p : Vector3) (dist2compare : ℚ) : Bool :=
  decide (0 ≤ dist2compare ∧ distSq3d env.target_position p ≤ dist2compare ^ 2)

/-! ## Behaviour policy points -/

/-- Gait policy `EnableWalking()`. The two `FollowMovementGenerator` specialisations
are lines 197-207 of the source; the chase one is declared in the header and
modelled from the spec ("always run"). -/
def EnableWalking (T : OwnerKind) (D : Behaviour) (env : Env) : Bool :=
  match D, T with
  | Behaviour.Chase, _ => false
  | Behaviour.Follow, OwnerKind.Creature => env.i_target_isValid && env.target_IsWalking
  | Behaviour.Follow, OwnerKind.Player => false

/-- Arrival hook `_reachTarget`. The chase one is lines 156-161 of the source; the
follow one is declared in the header and modelled from the spec (no action). -/
def _reachTarget (D : Behaviour) (env : Env) (s0 : St) : St :=
  let s := { s0 with log := s0.log ++ [Event.call_reachTarget] }
  match D with
  | Behaviour.Chase =>
    if env.CanReachWithMeleeAttack then
      { s with owner := env.Attack s.owner, log := s.log ++ [Event.Attack] }
    else s
  | Behaviour.Follow => s

/-! ## The replan operation -/

/-- Lines 38-70 of `_setTargetLocation`: the destination `(x, y, z)`, or `none` when
the function returns at line 48. -/
def _setTargetLocation_destination (env : Env) (g : Gen) (o : Owner)
    (updateDestination : Bool) : Option Vector3 :=
  match updateDestination, g.i_path with
  | false, some i_path =>
    -- the destination has not changed, we just need to refresh the path
    some i_path.getEndPosition
  | _, _ =>
    if g.i_offset != 0 && env.IsWithinDistInMap (2 * g.i_offset) then
      if !o.movespline.Finalized then none
      else some o.GetPosition
    else if g.i_offset == 0 then
      some env.GetContactPoint
    else
      some (env.GetClosePoint o.GetObjectBoundingRadius g.i_offset g.i_angle)

/-- Lines 76-77 of `_setTargetLocation`: the local `forceDest`. -/
def _setTargetLocation_forceDest (c : Consts) (T : OwnerKind) (o : Owner) : Bool :=
  GetTypeId T == TypeId.TYPEID_UNIT && o.IsPet && hasUnitState o c.UNIT_STAT_FOLLOW

/-- The method `TargetedMovementGeneratorMedium<T, D>::_setTargetLocation`. -/
def _setTargetLocation (c : Consts) (T : OwnerKind) (D : Behaviour) (env : Env) (s0 : St)
    (updateDestination : Bool) : St :=
  let s := { s0 with log := s0.log ++ [Event.call_setTargetLocation updateDestination] }
  if !env.i_target_isValid || !env.i_target_IsInWorld then s
  else if hasUnitState s.owner c.UNIT_STAT_NOT_MOVE then s
  else
    match _setTargetLocation_destination env s.gen s.owner updateDestination with
    | none => s
    | some dest =>
      -- if (!i_path) i_path = new PathFinder(&owner);
      let (i_path0, log1) :=
        match s.gen.i_path with
        | some p => (p, s.log)
        | none => (env.new_PathFinder, s.log ++ [Event.new_PathFinder])
      let forceDest := _setTargetLocation_forceDest c T s.owner
      let i_path := env.calculate i_path0 dest forceDest
      let s2 : St :=
        { s with gen := { s.gen with i_path := some i_path },
                 log := log1 ++ [Event.calculate dest forceDest] }
      if (i_path.getPathType &&& c.PATHFIND_NOPATH) != 0 then s2
      else
        let o3 := _addUnitStateMove c D s2.owner
        let walk := EnableWalking T D env
        { gen := { s2.gen with i_targetReached := false, m_speedChanged := false },
          owner := { o3 with movespline := env.Launch o3 i_path.getPath walk },
          log := s2.log ++ [Event.Launch i_path.getPath walk] }

/-! ## The per-tick update -/

/-- Lines 129-135 of `Update`: the displacement test made when the timer has lapsed. -/
def Update_targetMoved (T : OwnerKind) (env : Env) (o : Owner) : Bool :=
  let allowed_dist := env.float_add o.GetObjectBoundingRadius env.CONFIG_RANGE
  let dest := o.movespline.FinalDestination
  if GetTypeId T == TypeId.TYPEID_UNIT && o.CanFly then
    !IsWithinDist3d env dest allowed_dist
  else
    !IsWithinDist2d env dest allowed_dist

/-- Lines 122-139 of `Update`: timer, displacement test and replan. -/
def Update_replan (c : Consts) (T : OwnerKind) (D : Behaviour) (env : Env) (s : St)
    (time_diff : Nat) : St :=
  let t1 := s.gen.i_recheckDistance.Update time_diff
  let targetMoved := if t1.Passed then Update_targetMoved T env s.owner else false
  let t2 := if t1.Passed then t1.Reset 100 else t1
  let s1 : St := { s with gen := { s.gen with i_recheckDistance := t2 } }
  if s1.gen.m_speedChanged || targetMoved then
    _setTargetLocation c T D env s1 targetMoved
  else s1

/-- Lines 141-151 of `Update`: facing correction and arrival hook. -/
def Update_arrival (D : Behaviour) (env : Env) (s : St) : St :=
  if s.owner.movespline.Finalized then
    let s1 : St :=
      if s.gen.i_angle == 0 && !env.HasInArc then
        { s with owner := env.SetInFront s.owner, log := s.log ++ [Event.SetInFront] }
      else s
    if !s1.gen.i_targetReached then
      _reachTarget D env { s1 with gen := { s1.gen with i_targetReached := true } }
    else s1
  else s

/-- The method `TargetedMovementGeneratorMedium<T, D>::Update`; the first component is
the returned continue / terminate signal. -/
def Update (c : Consts) (T : OwnerKind) (D : Behaviour) (env : Env) (s : St)
    (time_diff : Nat) : Bool × St :=
  if !env.i_target_isValid || !env.i_target_IsInWorld then (false, s)
  else if !s.owner.isAlive then (true, s)
  else if hasUnitState s.owner c.UNIT_STAT_NOT_MOVE then
    (true, { s with owner := _clearUnitStateMove c D s.owner })
  else if s.owner.IsNonMeleeSpellCasted then
    -- prevent movement while casting spells with cast time or channel time
    if !s.owner.IsStopped then
      (true, { s with owner := env.StopMoving s.owner, log := s.log ++ [Event.StopMoving] })
    else (true, s)
  else if env.lostTarget then
    (true, { s with owner := _clearUnitStateMove c D s.owner })
  else
    (true, Update_arrival D env (Update_replan c T D env s time_diff))

/-! ## Lifecycle methods of the two behaviours -/

/-- The method `FollowMovementGenerator<T>::_updateSpeed` (lines 209-225): nothing for a
`Player`; for a `Creature`, the three speeds are refreshed when the owner is a pet, the
target handle is valid and the target is the pet's owner. -/
def _updateSpeed (T : OwnerKind) (env : Env) (s : St) : St :=
  match T with
  | OwnerKind.Player => s
  | OwnerKind.Creature =>
    if !s.owner.IsPet || !env.i_target_isValid
        || env.target_GetObjectGuid != s.owner.GetOwnerGuid then s
    else
      let o1 := env.UpdateSpeed s.owner UnitMoveType.MOVE_RUN true
      let o2 := env.UpdateSpeed o1 UnitMoveType.MOVE_WALK true
      let o3 := env.UpdateSpeed o2 UnitMoveType.MOVE_SWIM true
      { s with owner := o3,
               log := s.log ++ [Event.UpdateSpeed UnitMoveType.MOVE_RUN true,
                                Event.UpdateSpeed UnitMoveType.MOVE_WALK true,
                                Event.UpdateSpeed UnitMoveType.MOVE_SWIM true] }

/-- The two specialisations of `ChaseMovementGenerator<T>::Initialize` (lines 163-176). -/
def Chase_Initialize (c : Consts) (T : OwnerKind) (env : Env) (s : St) : St :=
  match T with
  | OwnerKind.Player =>
    _setTargetLocation c T Behaviour.Chase env
      { s with owner := addUnitState s.owner c.UNIT_STAT_CHASE } true
  | OwnerKind.Creature =>
    -- Chase movement is running
    let o1 := env.SetWalk s.owner false false
    _setTargetLocation c T Behaviour.Chase env
      { s with owner := addUnitState o1 c.UNIT_STAT_CHASE,
               log := s.log ++ [Event.SetWalk false false] } true

/-- The method `ChaseMovementGenerator<T>::Finalize` (lines 178-182). -/
def Chase_Finalize (c : Consts) (s : St) : St :=
  { s with owner := clearUnitState s.owner (c.UNIT_STAT_CHASE ||| c.UNIT_STAT_CHASE_MOVE) }

/-- The method `ChaseMovementGenerator<T>::Interrupt` (lines 184-188). -/
def Chase_Interrupt (c : Consts) (s : St) : St :=
  { s with owner := clearUnitState s.owner (c.UNIT_STAT_CHASE ||| c.UNIT_STAT_CHASE_MOVE) }

/-- The method `ChaseMovementGenerator<T>::Reset` (lines 190-194). -/
def Chase_Reset (c : Consts) (T : OwnerKind) (env : Env) (s : St) : St :=
  Chase_Initialize c T env s

/-- The two specialisations of `FollowMovementGenerator<T>::Initialize` (lines 227-241),
which have the same body. -/
def Follow_Initialize (c : Consts) (T : OwnerKind) (env : Env) (s : St) : St :=
  _setTargetLocation c T Behaviour.Follow env
    (_updateSpeed T env { s with owner := addUnitState s.owner c.UNIT_STAT_FOLLOW }) true

/-- The method `FollowMovementGenerator<T>::Finalize` (lines 243-248). -/
def Follow_Finalize (c : Consts) (T : OwnerKind) (env : Env) (s : St) : St :=
  _updateSpeed T env
    { s with owner := clearUnitState s.owner (c.UNIT_STAT_FOLLOW ||| c.UNIT_STAT_FOLLOW_MOVE) }

/-- The method `FollowMovementGenerator<T>::Interrupt` (lines 250-255). -/
def Follow_Interrupt (c : Consts) (T : OwnerKind) (env : Env) (s : St) : St :=
  _updateSpeed T env
    { s with owner := clearUnitState s.owner (c.UNIT_STAT_FOLLOW ||| c.UNIT_STAT_FOLLOW_MOVE) }

/-- The method `FollowMovementGenerator<T>::Reset` (lines 257-261). -/
def Follow_Reset (c : Consts) (T : OwnerKind) (env : Env) (s : St) : St :=
  Follow_Initialize c T env s

/-! ## Predicates and harness used to state the properties -/

/-- All blocking checks of `Update` (lines 95-120) are passed. -/
def unblocked (c : Consts) (env : Env) (o : Owner) : Bool :=
  env.i_target_isValid && env.i_target_IsInWorld && o.isAlive
    && !hasUnitState o c.UNIT_STAT_NOT_MOVE && !o.IsNonMeleeSpellCasted && !env.lostTarget

/-- A replan succeeded: the log records a launch on the motion executor (line 89 is
reached exactly when lines 82-84 are). -/
def replanSucceeded (log : List Event) : Bool :=
  log.any fun e =>
    match e with
    | Event.Launch _ _ => true
    | _ => false

/-- The log records an invocation of the replan operation. -/
def replanInvoked (log : List Event) : Bool :=
  log.any fun e =>
    match e with
    | Event.call_setTargetLocation _ => true
    | _ => false

/-- The log records a query of the planner. -/
def plannerQueried (log : List Event) : Bool :=
  log.any fun e =>
    match e with
    | Event.calculate _ _ => true
    | _ => false

/-- What the caller supplies for one tick: the world as observed during the call, the
owner unit as it is at the call, and the elapsed time. -/
structure Tick where
  env : Env
  owner : Owner
  time_diff : Nat

/-- One `Update` call of a tick, on an empty log. -/
def UpdateTick (c : Consts) (T : OwnerKind) (D : Behaviour) (g : Gen) (t : Tick) : Bool × St :=
  Update c T D t.env { gen := g, owner := t.owner, log := [] } t.time_diff

/-- The tick is unblocked and its test at line 141 sees the motion as finished. -/
def observesFinished (c : Consts) (T : OwnerKind) (D : Behaviour) (g : Gen) (t : Tick) : Bool :=
  unblocked c t.env t.owner
    && (Update_replan c T D t.env { gen := g, owner := t.owner, log := [] }
          t.time_diff).owner.movespline.Finalized

/-- Per tick record of a run: did the tick observe the motion as finished, and the log
of its `Update`. -/
structure TickRecord where
  finished : Bool
  log : List Event

/-- A finite sequence of `Update` calls on one generator; the generator fields are
carried from call to call, the owner and the world are supplied afresh each tick. -/
def runUpdates (c : Consts) (T : OwnerKind) (D : Behaviour) : Gen → List Tick → List TickRecord
  | _, [] => []
  | g, t :: ts =>
    { finished := observesFinished c T D g t, log := (UpdateTick c T D g t).2.log }
      :: runUpdates c T D (UpdateTick c T D g t).2.gen ts

/-- Marks the first `true` of a list with `1` and every other position with `0`. -/
def markFirst : List Bool → List Nat
  | [] => []
  | true :: bs => 1 :: bs.map fun _ => 0
  | false :: bs => 0 :: markFirst bs

/-! ## Concrete inputs -/

/-- Sample constants. -/
def sampleConsts : Consts :=
  { UNIT_STAT_CHASE := 0x2000, UNIT_STAT_FOLLOW := 0x4000, UNIT_STAT_CHASE_MOVE := 0x20000,
    UNIT_STAT_FOLLOW_MOVE := 0x40000, UNIT_STAT_NOT_MOVE := 0x1C, PATHFIND_NOPATH := 8 }

/-- The origin. -/
def origin : Vector3 := { x := 0, y := 0, z := 0 }

/-- A sample world: a valid target at (10, 0, 0), a planner that answers every query
with the straight two point path of type 1 (no flag of `PATHFIND_NOPATH`). The float
sum is the exact one: the only sum taken in this world is 1 + 1, which needs no
rounding. -/
def sampleEnv : Env :=
  { i_target_isValid := true
    i_target_IsInWorld := true
    target_IsWalking := true
    target_GetObjectGuid := 7
    target_position := { x := 10, y := 0, z := 0 }
    IsWithinDistInMap := fun d => decide (10 ≤ d)
    GetContactPoint := { x := 9, y := 0, z := 0 }
    GetClosePoint := fun _ d _ => { x := 10 - d, y := 0, z := 0 }
    lostTarget := false
    HasInArc := true
    CanReachWithMeleeAttack := true
    CONFIG_RANGE := 1
    float_add := fun a b => a + b
    new_PathFinder := { getPath := [], getEndPosition := origin, getPathType := 0 }
    calculate := fun _ d _ => { getPath := [origin, d], getEndPosition := d, getPathType := 1 }
    Launch := fun _ path _ => { Finalized := false, FinalDestination := path.getLastD origin }
    StopMoving := fun o => { o with IsStopped := true }
    SetInFront := fun o => o
    Attack := fun o => o
    SetWalk := fun o _ _ => o
    UpdateSpeed := fun o _ _ => o }

/-- The sample world with a planner that never finds a path. -/
def noPathEnv : Env :=
  { sampleEnv with
    calculate := fun _ d _ => { getPath := [], getEndPosition := d, getPathType := 8 } }

/-- The sample world with the target handle no longer valid. -/
def goneEnv : Env :=
  { sampleEnv with i_target_isValid := false }

/-- A sample owner at the origin: alive, free to move, not casting, motion finished. -/
def sampleOwner : Owner :=
  { m_state := 0x2000
    isAlive := true
    IsNonMeleeSpellCasted := false
    IsStopped := false
    movespline := { Finalized := true, FinalDestination := origin }
    GetPosition := origin
    GetObjectBoundingRadius := 1
    IsPet := false
    CanFly := false
    GetOwnerGuid := 0
    GetOrientation := 0 }

/-- A sample generator: no path yet, offset and angle zero, timer at 100. -/
def sampleGen : Gen :=
  { i_path := none
    i_offset := 0
    i_angle := 0
    i_recheckDistance := { i_expiryTime := 100 }
    i_targetReached := false
    m_speedChanged := false }

/-- The sample state on an empty log. -/
def sampleSt : St :=
  { gen := sampleGen, owner := sampleOwner, log := [] }

/-- The sample owner while its motion is still running. -/
def movingOwner : Owner :=
  { sampleOwner with
    movespline := { Finalized := false, FinalDestination := { x := 9, y := 0, z := 0 } } }

/-- The sample owner, dead. -/
def deadOwner : Owner :=
  { sampleOwner with isAlive := false }

/-- Four ticks of ten time units: a blocked one (owner dead), one with the motion still
running, and two with the motion finished. -/
def sampleTicks : List Tick :=
  [ { env := sampleEnv, owner := deadOwner, time_diff := 10 },
    { env := sampleEnv, owner := movingOwner, time_diff := 10 },
    { env := sampleEnv, owner := sampleOwner, time_diff := 10 },
    { env := sampleEnv, owner := sampleOwner, time_diff := 10 } ]

/-- The sample owner, dead, while a spell with cast time is being cast. -/
def deadCaster : Owner :=
  { sampleOwner with isAlive := false, IsNonMeleeSpellCasted := true }

/-- The sample owner, alive but rooted (a bit of `UNIT_STAT_NOT_MOVE` is set), while a
spell with cast time is being cast. -/
def rootedCaster : Owner :=
  { sampleOwner with m_state := 0x2010, IsNonMeleeSpellCasted := true }

/-- The sample owner, alive and free to move, while a spell with cast time is being cast. -/
def freeCaster : Owner :=
  { sampleOwner with IsNonMeleeSpellCasted := true }

/-- The sample generator with the speed-changed flag set. -/
def speedChangedGen : Gen :=
  { sampleGen with m_speedChanged := true }

/-- The sample owner, stunned or rooted (a bit of `UNIT_STAT_NOT_MOVE` is set). -/
def rootedOwner : Owner :=
  { sampleOwner with m_state := 0x2010 }

/-- A follow generator: offset 5 behind the target (angle 3), no path yet. -/
def followGen : Gen :=
  { sampleGen with i_offset := 5, i_angle := 3 }

/-- A path from the origin to (4, 4, 0), as a planner left it. -/
def samplePath : PathFinder :=
  { getPath := [origin, { x := 4, y := 4, z := 0 }]
    getEndPosition := { x := 4, y := 4, z := 0 }
    getPathType := 1 }

/-- The follow generator holding the sample path. -/
def followGenWithPath : Gen :=
  { followGen with i_path := some samplePath }

/-- Spec side of the gait policy: walking exactly for a follow of a walking target by an
autonomously controlled owner, running in every other case. -/
def spec_walkFlag (T : OwnerKind) (D : Behaviour) (env : Env) : Bool :=
  match D, T with
  | Behaviour.Follow, OwnerKind.Creature => env.target_IsWalking
  | Behaviour.Follow, OwnerKind.Player => false
  | Behaviour.Chase, _ => false

/-- The follow generator, on the way to its slot: the target is 30 units away. -/
def farEnv : Env :=
  { sampleEnv with
    target_position := { x := 30, y := 0, z := 0 }
    IsWithinDistInMap := fun d => decide (30 ≤ d)
    GetContactPoint := { x := 29, y := 0, z := 0 }
    GetClosePoint := fun _ d _ => { x := 30 - d, y := 0, z := 0 } }

/-- The sample owner with the follow-active bit instead of the chase-active one. -/
def followOwner : Owner :=
  { sampleOwner with m_state := 0x4000 }

/-- The follow owner while its motion is still running. -/
def followMovingOwner : Owner :=
  { followOwner with
    movespline := { Finalized := false, FinalDestination := { x := 5, y := 0, z := 0 } } }

/-- A pet of the unit with guid 7 (the sample target), with the follow-active and
follow-moving bits and one unrelated bit (0x1) set. -/
def petOwner : Owner :=
  { sampleOwner with m_state := 0x44001, IsPet := true, GetOwnerGuid := 7 }

/-- The sample owner, chasing and moving, with one unrelated bit (0x1) set. -/
def chasingOwner : Owner :=
  { sampleOwner with m_state := 0x22001 }

/-- The sample owner, chasing and moving, stunned (bit 0x8 of `UNIT_STAT_NOT_MOVE`). -/
def stunnedChaser : Owner :=
  { sampleOwner with m_state := 0x22008 }

/-- The sample world in which the chase has lost its target. -/
def lostEnv : Env :=
  { sampleEnv with lostTarget := true }

/-- The generator fields after a finite sequence of `Update` calls. -/
def genAfter (c : Consts) (T : OwnerKind) (D : Behaviour) : Gen → List Tick → Gen
  | g, [] => g
  | g, t :: ts => genAfter c T D (UpdateTick c T D g t).2.gen ts

/-- A tick of ten time units in which the sample owner, at (17/2, 0, 0) on its way to
the contact point (9, 0, 0), is casting a spell with cast time. -/
def castTick : Tick :=
  { env := sampleEnv
    owner := { sampleOwner with
               IsNonMeleeSpellCasted := true
               GetPosition := { x := 17 / 2, y := 0, z := 0 }
               movespline := { Finalized := false,
                               FinalDestination := { x := 9, y := 0, z := 0 } } }
    time_diff := 10 }

/-- The tick after the cast, a hundred time units long: the owner stands where it was
halted, at (17/2, 0, 0), which is also the final destination of its spline; the target
is still at (10, 0, 0), one and a half units away, and the allowed distance is two. -/
def resumeTick : Tick :=
  { env := sampleEnv
    owner := { sampleOwner with
               IsStopped := true
               GetPosition := { x := 17 / 2, y := 0, z := 0 }
               movespline := { Finalized := true,
                               FinalDestination := { x := 17 / 2, y := 0, z := 0 } } }
    time_diff := 100 }

/-- The sample world in which the owner does not have the target in its front arc;
`SetInFront` turns the owner to orientation 0, the direction of the target. -/
def askewEnv : Env :=
  { sampleEnv with
    HasInArc := false
    SetInFront := fun o => { o with GetOrientation := 0 } }

/-- The sample owner, motion finished, facing away from the target (orientation 2). -/
def askewOwner : Owner :=
  { sampleOwner with GetOrientation := 2 }

/-- The sample generator with the arrival flag already set. -/
def reachedGen : Gen :=
  { sampleGen with i_targetReached := true }

/-- The sample world with a target (guid 8) that is not the owner of the sample pet. -/
def strangerEnv : Env :=
  { sampleEnv with target_GetObjectGuid := 8 }

/-- An owner that is stunned (bit 0x8 of `UNIT_STAT_NOT_MOVE`) when the chase is
initialised, with no other state bit set. -/
def stunnedOwner : Owner :=
  { sampleOwner with m_state := 0x8 }

/-! ## Lemmas on the replan operation -/

/-- A replan whose destination selection returns at line 48 only records its invocation. -/
theorem setTargetLocation_suppressed (c : Consts) (T : OwnerKind) (D : Behaviour)
    (env : Env) (s : St) (b : Bool)
    (hd : _setTargetLocation_destination env s.gen s.owner b = none) :
    _setTargetLocation c T D env s b
      = { s with log := s.log ++ [Event.call_setTargetLocation b] } := by
  unfold _setTargetLocation
  simp only [hd]
  split_ifs <;> rfl

/-- A replan that fails a precondition (lines 32-36) only records its invocation. -/
theorem setTargetLocation_blocked (c : Consts) (T : OwnerKind) (D : Behaviour)
    (env : Env) (s : St) (b : Bool)
    (h : (env.i_target_isValid && env.i_target_IsInWorld
            && !hasUnitState s.owner c.UNIT_STAT_NOT_MOVE) = false) :
    _setTargetLocation c T D env s b
      = { s with log := s.log ++ [Event.call_setTargetLocation b] } := by
  unfold _setTargetLocation
  cases hv : env.i_target_isValid <;> cases hw : env.i_target_IsInWorld <;>
    cases hm : hasUnitState s.owner c.UNIT_STAT_NOT_MOVE <;> simp_all

/-- A replan that passes its preconditions and selects a destination, from the planner
query on (lines 72-89). -/
theorem setTargetLocation_planned (c : Consts) (T : OwnerKind) (D : Behaviour)
    (env : Env) (s : St) (b : Bool) (dest : Vector3)
    (hv : env.i_target_isValid = true) (hw : env.i_target_IsInWorld = true)
    (hm : hasUnitState s.owner c.UNIT_STAT_NOT_MOVE = false)
    (hd : _setTargetLocation_destination env s.gen s.owner b = some dest) :
    _setTargetLocation c T D env s b
      = (let forceDest := _setTargetLocation_forceDest c T s.owner
         let p := env.calculate (s.gen.i_path.getD env.new_PathFinder) dest forceDest
         let log2 := s.log ++ [Event.call_setTargetLocation b]
            ++ (if s.gen.i_path.isNone then [Event.new_PathFinder] else [])
            ++ [Event.calculate dest forceDest]
         if (p.getPathType &&& c.PATHFIND_NOPATH) != 0 then
           { gen := { s.gen with i_path := some p }, owner := s.owner, log := log2 }
         else
           { gen := { s.gen with i_path := some p, i_targetReached := false,
                                 m_speedChanged := false },
             owner := { _addUnitStateMove c D s.owner with
                        movespline := env.Launch (_addUnitStateMove c D s.owner) p.getPath
                          (EnableWalking T D env) },
             log := log2 ++ [Event.Launch p.getPath (EnableWalking T D env)] }) := by
  unfold _setTargetLocation
  simp only [hv, hw, hm, hd]
  cases hp : s.gen.i_path <;> simp

/-- The replan never records an invocation of the arrival hook. -/
theorem setTargetLocation_count_reach (c : Consts) (T : OwnerKind) (D : Behaviour)
    (env : Env) (s : St) (b : Bool) :
    (_setTargetLocation c T D env s b).log.count Event.call_reachTarget
      = s.log.count Event.call_reachTarget := by
  cases hpre : (env.i_target_isValid && env.i_target_IsInWorld
            && !hasUnitState s.owner c.UNIT_STAT_NOT_MOVE)
  · rw [setTargetLocation_blocked c T D env s b hpre]
    simp
  · simp only [Bool.and_eq_true, Bool.not_eq_true', Bool.not_eq_eq_eq_not, Bool.not_true] at hpre
    obtain ⟨⟨hv, hw⟩, hm⟩ := hpre
    cases hd : _setTargetLocation_destination env s.gen s.owner b with
    | none =>
      rw [setTargetLocation_suppressed c T D env s b hd]
      simp
    | some dest =>
      rw [setTargetLocation_planned c T D env s b dest hv hw hm hd]
      simp only []
      split_ifs <;> simp [List.count_append]

/-- A replan that did not launch left the arrival flag, the speed-changed flag and the
owner as they were. -/
theorem setTargetLocation_not_succeeded (c : Consts) (T : OwnerKind) (D : Behaviour)
    (env : Env) (s : St) (b : Bool)
    (h : replanSucceeded (_setTargetLocation c T D env s b).log = false) :
    (_setTargetLocation c T D env s b).gen.i_targetReached = s.gen.i_targetReached
      ∧ (_setTargetLocation c T D env s b).gen.m_speedChanged = s.gen.m_speedChanged
      ∧ (_setTargetLocation c T D env s b).owner = s.owner := by
  cases hpre : (env.i_target_isValid && env.i_target_IsInWorld
            && !hasUnitState s.owner c.UNIT_STAT_NOT_MOVE)
  · rw [setTargetLocation_blocked c T D env s b hpre]
    simp
  · simp only [Bool.and_eq_true, Bool.not_eq_true', Bool.not_eq_eq_eq_not, Bool.not_true] at hpre
    obtain ⟨⟨hv, hw⟩, hm⟩ := hpre
    cases hd : _setTargetLocation_destination env s.gen s.owner b with
    | none =>
      rw [setTargetLocation_suppressed c T D env s b hd]
      simp
    | some dest =>
      rw [setTargetLocation_planned c T D env s b dest hv hw hm hd] at h ⊢
      simp only [] at h ⊢
      split_ifs at h ⊢ <;> first | (simp; done) | (simp [replanSucceeded] at h)

/-! ## Lemmas on the per-tick update -/

/-- An unblocked tick runs the replan step and then the arrival step. -/
theorem Update_unblocked (c : Consts) (T : OwnerKind) (D : Behaviour) (env : Env) (s : St)
    (time_diff : Nat) (h : unblocked c env s.owner = true) :
    Update c T D env s time_diff
      = (true, Update_arrival D env (Update_replan c T D env s time_diff)) := by
  simp only [unblocked, Bool.and_eq_true, Bool.not_eq_true', Bool.not_eq_eq_eq_not,
    Bool.not_true] at h
  obtain ⟨⟨⟨⟨⟨hv, hw⟩, ha⟩, hm⟩, hc⟩, hl⟩ := h
  simp [Update, hv, hw, ha, hm, hc, hl]

/-- A blocked tick leaves the generator fields alone and records at most a halt. -/
theorem Update_blocked (c : Consts) (T : OwnerKind) (D : Behaviour) (env : Env) (s : St)
    (time_diff : Nat) (h : unblocked c env s.owner = false) :
    (Update c T D env s time_diff).2.gen = s.gen
      ∧ ((Update c T D env s time_diff).2.log = s.log
          ∨ (Update c T D env s time_diff).2.log = s.log ++ [Event.StopMoving]) := by
  unfold Update
  split_ifs <;> simp_all [unblocked]

/-- The replan step never records an invocation of the arrival hook. -/
theorem Update_replan_count_reach (c : Consts) (T : OwnerKind) (D : Behaviour) (env : Env)
    (s : St) (time_diff : Nat) :
    (Update_replan c T D env s time_diff).log.count Event.call_reachTarget
      = s.log.count Event.call_reachTarget := by
  unfold Update_replan
  simp only []
  split_ifs <;> simp [setTargetLocation_count_reach]

/-- A replan step without launch keeps the arrival flag and the owner. -/
theorem Update_replan_not_succeeded (c : Consts) (T : OwnerKind) (D : Behaviour) (env : Env)
    (s : St) (time_diff : Nat)
    (h : replanSucceeded (Update_replan c T D env s time_diff).log = false) :
    (Update_replan c T D env s time_diff).gen.i_targetReached = s.gen.i_targetReached
      ∧ (Update_replan c T D env s time_diff).owner = s.owner := by
  unfold Update_replan at h ⊢
  simp only [] at h ⊢
  split_ifs at h ⊢ <;>
    first
    | (have h2 := setTargetLocation_not_succeeded c T D env _ _ h
       exact ⟨h2.1, h2.2.2⟩)
    | simp

/-- The arrival step extends the log. -/
theorem Update_arrival_log (D : Behaviour) (env : Env) (s : St) :
    ∃ extra, (Update_arrival D env s).log = s.log ++ extra
      ∧ replanSucceeded extra = false
      ∧ extra.count Event.call_reachTarget
          = (if s.owner.movespline.Finalized && !s.gen.i_targetReached then 1 else 0) := by
  unfold Update_arrival _reachTarget
  cases D <;> cases hf : s.owner.movespline.Finalized <;> cases hr : s.gen.i_targetReached <;>
    cases ha : (s.gen.i_angle == 0 && !env.HasInArc) <;>
    cases hc : env.CanReachWithMeleeAttack <;>
    simp_all [replanSucceeded, List.count_cons]

/-- The arrival step sets the arrival flag exactly when the motion is finished. -/
theorem Update_arrival_flag (D : Behaviour) (env : Env) (s : St) :
    (Update_arrival D env s).gen.i_targetReached
      = (s.gen.i_targetReached || s.owner.movespline.Finalized) := by
  unfold Update_arrival _reachTarget
  cases D <;> cases hf : s.owner.movespline.Finalized <;> cases hr : s.gen.i_targetReached <;>
    cases ha : (s.gen.i_angle == 0 && !env.HasInArc) <;>
    cases hc : env.CanReachWithMeleeAttack <;>
    simp_all

/-- One tick without a successful replan: the hook runs exactly when the tick sees the
motion as finished while the arrival flag is clear, and the flag afterwards is set
exactly when it was set before or the tick saw the motion as finished. -/
theorem UpdateTick_no_success (c : Consts) (T : OwnerKind) (D : Behaviour) (g : Gen) (t : Tick)
    (h : replanSucceeded (UpdateTick c T D g t).2.log = false) :
    (UpdateTick c T D g t).2.log.count Event.call_reachTarget
        = (if observesFinished c T D g t && !g.i_targetReached then 1 else 0)
      ∧ (UpdateTick c T D g t).2.gen.i_targetReached
        = (g.i_targetReached || observesFinished c T D g t) := by
  cases hu : unblocked c t.env t.owner
  · have hb := Update_blocked c T D t.env { gen := g, owner := t.owner, log := [] } t.time_diff hu
    simp only [UpdateTick, observesFinished, hu, Bool.false_and, Bool.or_false] at hb ⊢
    refine ⟨?_, by rw [hb.1]⟩
    rcases hb.2 with hl | hl <;> rw [hl] <;> simp
  · have he := Update_unblocked c T D t.env { gen := g, owner := t.owner, log := [] }
      t.time_diff hu
    simp only [UpdateTick, observesFinished, hu, Bool.true_and] at h ⊢
    rw [he] at h ⊢
    simp only [] at h ⊢
    obtain ⟨extra, hlog, _, hcount⟩ := Update_arrival_log D t.env
      (Update_replan c T D t.env { gen := g, owner := t.owner, log := [] } t.time_diff)
    have hflag := Update_arrival_flag D t.env
      (Update_replan c T D t.env { gen := g, owner := t.owner, log := [] } t.time_diff)
    have hns : replanSucceeded
        (Update_replan c T D t.env { gen := g, owner := t.owner, log := [] } t.time_diff).log
          = false := by
      rw [hlog] at h
      simp only [replanSucceeded, List.any_append, Bool.or_eq_false_iff] at h ⊢
      exact h.1
    have hkeep := Update_replan_not_succeeded c T D t.env _ _ hns
    have hzero := Update_replan_count_reach c T D t.env
      { gen := g, owner := t.owner, log := [] } t.time_diff
    simp only [List.count_nil] at hzero
    refine ⟨?_, ?_⟩
    · rw [hlog, List.count_append, hzero, hcount, hkeep.1]
      simp
    · rw [hflag, hkeep.1]

/-- Once the arrival flag is set, a run without successful replan never runs the hook. -/
theorem runUpdates_reached (c : Consts) (T : OwnerKind) (D : Behaviour) (ticks : List Tick) :
    ∀ g : Gen, g.i_targetReached = true →
      (∀ r ∈ runUpdates c T D g ticks, replanSucceeded r.log = false) →
      (runUpdates c T D g ticks).map (fun r => r.log.count Event.call_reachTarget)
        = (runUpdates c T D g ticks).map (fun _ => 0) := by
  induction ticks with
  | nil => intro g _ _; rfl
  | cons t ts ih =>
    intro g hg hno
    simp only [runUpdates, List.mem_cons, forall_eq_or_imp] at hno
    obtain ⟨h1, h2⟩ := UpdateTick_no_success c T D g t hno.1
    simp only [runUpdates, List.map_cons]
    rw [ih _ (by rw [h2, hg]; rfl) hno.2, h1, hg]
    simp

/-- In a run without successful replan that starts with the arrival flag clear, the
hook runs in the first tick that sees the motion as finished and in no other. -/
theorem runUpdates_markFirst (c : Consts) (T : OwnerKind) (D : Behaviour) (ticks : List Tick) :
    ∀ g : Gen, g.i_targetReached = false →
      (∀ r ∈ runUpdates c T D g ticks, replanSucceeded r.log = false) →
      (runUpdates c T D g ticks).map (fun r => r.log.count Event.call_reachTarget)
        = markFirst ((runUpdates c T D g ticks).map (fun r => r.finished)) := by
  induction ticks with
  | nil => intro g _ _; rfl
  | cons t ts ih =>
    intro g hg hno
    simp only [runUpdates, List.mem_cons, forall_eq_or_imp] at hno
    obtain ⟨h1, h2⟩ := UpdateTick_no_success c T D g t hno.1
    simp only [runUpdates, List.map_cons]
    cases hf : observesFinished c T D g t
    · rw [h1, hf, markFirst, ih _ (by rw [h2, hg, hf]; rfl) hno.2]
      simp
    · rw [h1, hf, hg, markFirst,
        runUpdates_reached c T D ts _ (by rw [h2, hf]; simp) hno.2, List.map_map]
      rfl

/-- The marks of `markFirst` add up to one when some entry is true, to zero otherwise. -/
theorem markFirst_sum (bs : List Bool) :
    (markFirst bs).sum = if bs.any id then 1 else 0 := by
  induction bs with
  | nil => rfl
  | cons b bs ih =>
    cases b
    · simp [markFirst, ih]
    · simp [markFirst]

/-! ## The claims -/

/-- C1. `Update` returns false (terminate) exactly when the target handle is invalid or
the target is not in the world, and true (continue) in every other case; when it returns
false the whole state (every generator field, the owner with all its state bits, the
call log) is the state it was called on. -/
theorem Update_terminate_iff_target_gone (c : Consts) (T : OwnerKind) (D : Behaviour)
    (env : Env) (s : St) (time_diff : Nat) :
    ((Update c T D env s time_diff).1 = false ↔
        (env.i_target_isValid = false ∨ env.i_target_IsInWorld = false))
      ∧ ((Update c T D env s time_diff).1 = true ↔
        (env.i_target_isValid = true ∧ env.i_target_IsInWorld = true))
      ∧ ((Update c T D env s time_diff).1 = false → (Update c T D env s time_diff).2 = s) := by
  unfold Update
  cases hv : env.i_target_isValid <;> cases hw : env.i_target_IsInWorld <;> simp
  split_ifs <;> simp

/-- Witness of C1: with the target handle invalid the sample call terminates and leaves
the sample state as it was. -/
theorem Update_terminate_witness :
    (Update sampleConsts OwnerKind.Creature Behaviour.Chase goneEnv sampleSt 100).1 = false
      ∧ (Update sampleConsts OwnerKind.Creature Behaviour.Chase goneEnv sampleSt 100).2
          = sampleSt :=
  have h := Update_terminate_iff_target_gone sampleConsts OwnerKind.Creature Behaviour.Chase
    goneEnv sampleSt 100
  ⟨h.1.2 (Or.inl rfl), h.2.2 (h.1.2 (Or.inl rfl))⟩

/-- C2. Starting with the arrival flag clear, over any finite sequence of `Update` calls
in which no replan succeeds, the arrival hook is invoked in the first tick that is
unblocked and sees the motion as finished and in no other tick: once in total if there
is such a tick, never otherwise. In every single call, an arrival flag that was set and
is clear afterwards means that a replan succeeded in that call. -/
theorem arrival_hook_exactly_once (c : Consts) (T : OwnerKind) (D : Behaviour) (g : Gen)
    (ticks : List Tick) (h0 : g.i_targetReached = false)
    (hno : ∀ r ∈ runUpdates c T D g ticks, replanSucceeded r.log = false) :
    (runUpdates c T D g ticks).map (fun r => r.log.count Event.call_reachTarget)
        = markFirst ((runUpdates c T D g ticks).map (fun r => r.finished))
      ∧ ((runUpdates c T D g ticks).map (fun r => r.log.count Event.call_reachTarget)).sum
        = (if (runUpdates c T D g ticks).any (fun r => r.finished) then 1 else 0)
      ∧ (∀ (g2 : Gen) (t : Tick), g2.i_targetReached = true →
          (UpdateTick c T D g2 t).2.gen.i_targetReached = false →
          replanSucceeded (UpdateTick c T D g2 t).2.log = true) := by
  have hm := runUpdates_markFirst c T D ticks g h0 hno
  refine ⟨hm, ?_, ?_⟩
  · have ha : ((runUpdates c T D g ticks).map (fun r => r.finished)).any id
        = (runUpdates c T D g ticks).any (fun r => r.finished) := by
      induction runUpdates c T D g ticks with
      | nil => rfl
      | cons r rs ih => simp [List.any_cons, ih]
    rw [hm, markFirst_sum, ha]
  · intro g2 t hg2 hclear
    by_contra hs
    have h2 := (UpdateTick_no_success c T D g2 t (by simpa using hs)).2
    rw [hg2, hclear] at h2
    simp at h2

/-- Witness of C2: on the four sample ticks the hook runs in the third tick only. -/
theorem arrival_hook_exactly_once_witness :
    (runUpdates sampleConsts OwnerKind.Creature Behaviour.Chase sampleGen sampleTicks).map
        (fun r => r.log.count Event.call_reachTarget) = [0, 0, 1, 0]
      ∧ ((runUpdates sampleConsts OwnerKind.Creature Behaviour.Chase sampleGen sampleTicks).map
        (fun r => r.log.count Event.call_reachTarget)).sum = 1 := by
  have h := arrival_hook_exactly_once sampleConsts OwnerKind.Creature Behaviour.Chase sampleGen
    sampleTicks rfl (by decide)
  have hf : (runUpdates sampleConsts OwnerKind.Creature Behaviour.Chase sampleGen
      sampleTicks).map (fun r => r.finished) = [false, false, true, true] := by decide
  refine ⟨?_, ?_⟩
  · rw [h.1, hf]; rfl
  · have ha : (runUpdates sampleConsts OwnerKind.Creature Behaviour.Chase sampleGen
        sampleTicks).any (fun r => r.finished) = true := by decide
    rw [h.2.1, if_pos ha]

/-- Counterexample to C3 as stated: with a valid in-world target and an owner that is
casting and not stopped, `StopMoving` is not called when the owner is dead, nor when the
owner is movement-locked. -/
theorem casting_halt_counterexample :
    sampleEnv.i_target_isValid = true ∧ sampleEnv.i_target_IsInWorld = true
      ∧ deadCaster.IsNonMeleeSpellCasted = true ∧ deadCaster.IsStopped = false
      ∧ Event.StopMoving ∉ (Update sampleConsts OwnerKind.Creature Behaviour.Chase sampleEnv
          { gen := sampleGen, owner := deadCaster, log := [] } 10).2.log
      ∧ rootedCaster.IsNonMeleeSpellCasted = true ∧ rootedCaster.IsStopped = false
      ∧ rootedCaster.isAlive = true
      ∧ Event.StopMoving ∉ (Update sampleConsts OwnerKind.Creature Behaviour.Chase sampleEnv
          { gen := sampleGen, owner := rootedCaster, log := [] } 10).2.log := by
  decide

/-- C3, amended. In an `Update` call with a valid in-world target in which the owner is
casting a spell with cast or channel time, no replan is invoked and the generator
fields are untouched, whatever the displacement, the speed-changed flag and the state
bits are; when moreover the owner is alive and not movement-locked, `StopMoving` is
called unless the owner is already stopped, and nothing else happens; a dead or
movement-locked owner is not halted. -/
theorem casting_halts_motion (c : Consts) (T : OwnerKind) (D : Behaviour) (env : Env)
    (g : Gen) (o : Owner) (time_diff : Nat)
    (hv : env.i_target_isValid = true) (hw : env.i_target_IsInWorld = true)
    (hc : o.IsNonMeleeSpellCasted = true) :
    (Update c T D env { gen := g, owner := o, log := [] } time_diff).1 = true
      ∧ replanInvoked (Update c T D env { gen := g, owner := o, log := [] } time_diff).2.log
          = false
      ∧ (Update c T D env { gen := g, owner := o, log := [] } time_diff).2.gen = g
      ∧ (o.isAlive = true → hasUnitState o c.UNIT_STAT_NOT_MOVE = false →
          (Update c T D env { gen := g, owner := o, log := [] } time_diff).2
            = (if o.IsStopped then { gen := g, owner := o, log := [] }
               else { gen := g, owner := env.StopMoving o, log := [Event.StopMoving] }))
      ∧ ((o.isAlive = false ∨ hasUnitState o c.UNIT_STAT_NOT_MOVE = true) →
          (Update c T D env { gen := g, owner := o, log := [] } time_diff).2.log = []) := by
  unfold Update
  cases ha : o.isAlive <;> cases hm : hasUnitState o c.UNIT_STAT_NOT_MOVE <;>
    cases hs : o.IsStopped <;> simp [hv, hw, hc, ha, hm, hs, replanInvoked]

/-- Witness of C3 (amended): the free sample caster is halted by `StopMoving`. -/
theorem casting_halts_motion_witness :
    (Update sampleConsts OwnerKind.Creature Behaviour.Chase sampleEnv
        { gen := sampleGen, owner := freeCaster, log := [] } 10).2
      = { gen := sampleGen, owner := sampleEnv.StopMoving freeCaster,
          log := [Event.StopMoving] } :=
  (casting_halts_motion sampleConsts OwnerKind.Creature Behaviour.Chase sampleEnv sampleGen
    freeCaster 10 rfl rfl rfl).2.2.2.1 rfl (by decide)

/-- Invocation records in the log of a replan: those already there, and its own. -/
theorem setTargetLocation_mem_call (c : Consts) (T : OwnerKind) (D : Behaviour)
    (env : Env) (s : St) (b b2 : Bool) :
    Event.call_setTargetLocation b2 ∈ (_setTargetLocation c T D env s b).log
      ↔ (Event.call_setTargetLocation b2 ∈ s.log ∨ b2 = b) := by
  cases hpre : (env.i_target_isValid && env.i_target_IsInWorld
            && !hasUnitState s.owner c.UNIT_STAT_NOT_MOVE)
  · rw [setTargetLocation_blocked c T D env s b hpre]
    simp
  · simp only [Bool.and_eq_true, Bool.not_eq_true', Bool.not_eq_eq_eq_not, Bool.not_true] at hpre
    obtain ⟨⟨hv, hw⟩, hm⟩ := hpre
    cases hd : _setTargetLocation_destination env s.gen s.owner b with
    | none =>
      rw [setTargetLocation_suppressed c T D env s b hd]
      simp
    | some dest =>
      rw [setTargetLocation_planned c T D env s b dest hv hw hm hd]
      simp only []
      split_ifs <;> simp

/-- The arrival step touches no generator field but the arrival flag, and records only
the facing correction, the hook and the attack. -/
theorem Update_arrival_frame (D : Behaviour) (env : Env) (s : St) :
    (Update_arrival D env s).gen
        = { s.gen with
            i_targetReached := s.gen.i_targetReached || s.owner.movespline.Finalized }
      ∧ ∃ extra, (Update_arrival D env s).log = s.log ++ extra
          ∧ ∀ e ∈ extra, e = Event.SetInFront ∨ e = Event.call_reachTarget ∨ e = Event.Attack := by
  rcases s with ⟨⟨p, off, ang, t, r, sc⟩, o, l⟩
  unfold Update_arrival _reachTarget
  cases D <;> cases hf : o.movespline.Finalized <;> cases r <;>
    cases ha : (ang == 0 && !env.HasInArc) <;>
    cases hc : env.CanReachWithMeleeAttack <;>
    simp_all

/-- The replan step of a tick: the replan is invoked exactly when the speed-changed flag
is set or the displacement test was positive, with the result of the displacement test
as argument. -/
theorem Update_replan_mem_call (c : Consts) (T : OwnerKind) (D : Behaviour) (env : Env)
    (g : Gen) (o : Owner) (time_diff : Nat) (b : Bool) :
    Event.call_setTargetLocation b
        ∈ (Update_replan c T D env { gen := g, owner := o, log := [] } time_diff).log
      ↔ ((g.m_speedChanged = true
            ∨ ((g.i_recheckDistance.Update time_diff).Passed = true
                ∧ Update_targetMoved T env o = true))
          ∧ b = ((g.i_recheckDistance.Update time_diff).Passed && Update_targetMoved T env o)) := by
  unfold Update_replan
  cases hp : (g.i_recheckDistance.Update time_diff).Passed <;>
    cases hs : g.m_speedChanged <;> cases ht : Update_targetMoved T env o <;>
    simp [hp, hs, ht, setTargetLocation_mem_call]

/-- Invocation records in the log of an unblocked tick are those of its replan step. -/
theorem Update_unblocked_mem_call (c : Consts) (T : OwnerKind) (D : Behaviour) (env : Env)
    (g : Gen) (o : Owner) (time_diff : Nat) (b : Bool) (hu : unblocked c env o = true) :
    Event.call_setTargetLocation b
        ∈ (Update c T D env { gen := g, owner := o, log := [] } time_diff).2.log
      ↔ Event.call_setTargetLocation b
        ∈ (Update_replan c T D env { gen := g, owner := o, log := [] } time_diff).log := by
  rw [Update_unblocked c T D env _ time_diff hu]
  obtain ⟨_, extra, hlog, hex⟩ := Update_arrival_frame D env
    (Update_replan c T D env { gen := g, owner := o, log := [] } time_diff)
  simp only []
  rw [hlog, List.mem_append]
  constructor
  · rintro (h | h)
    · exact h
    · rcases hex _ h with h2 | h2 | h2 <;> cases h2
  · exact Or.inl

/-- The log records an invocation of the replan exactly when it holds an invocation
record. -/
theorem replanInvoked_iff (l : List Event) :
    replanInvoked l = true ↔ ∃ b, Event.call_setTargetLocation b ∈ l := by
  unfold replanInvoked
  rw [List.any_eq_true]
  constructor
  · rintro ⟨e, he, hm⟩
    cases e <;> simp at hm
    exact ⟨_, he⟩
  · rintro ⟨b, hb⟩
    exact ⟨_, hb, rfl⟩

/-- Without set speed-changed flag and without positive displacement test the replan
step only stores the timer. -/
theorem Update_replan_idle (c : Consts) (T : OwnerKind) (D : Behaviour) (env : Env)
    (s : St) (time_diff : Nat) (hs : s.gen.m_speedChanged = false)
    (ht : ((s.gen.i_recheckDistance.Update time_diff).Passed
            && Update_targetMoved T env s.owner) = false) :
    Update_replan c T D env s time_diff
      = { s with gen := { s.gen with i_recheckDistance :=
            if (s.gen.i_recheckDistance.Update time_diff).Passed then
              (s.gen.i_recheckDistance.Update time_diff).Reset 100
            else s.gen.i_recheckDistance.Update time_diff } } := by
  unfold Update_replan
  cases hp : (s.gen.i_recheckDistance.Update time_diff).Passed <;>
    simp_all

/-- In an unblocked tick the replan is invoked exactly when the speed-changed flag is set
or the timer lapsed with a positive displacement test. -/
theorem Update_unblocked_replanInvoked (c : Consts) (T : OwnerKind) (D : Behaviour) (env : Env)
    (g : Gen) (o : Owner) (time_diff : Nat) (hu : unblocked c env o = true) :
    replanInvoked (Update c T D env { gen := g, owner := o, log := [] } time_diff).2.log = true
      ↔ (g.m_speedChanged = true
          ∨ ((g.i_recheckDistance.Update time_diff).Passed = true
              ∧ Update_targetMoved T env o = true)) := by
  rw [replanInvoked_iff]
  constructor
  · rintro ⟨b, hb⟩
    rw [Update_unblocked_mem_call c T D env g o time_diff b hu, Update_replan_mem_call] at hb
    exact hb.1
  · intro h
    refine ⟨((g.i_recheckDistance.Update time_diff).Passed && Update_targetMoved T env o), ?_⟩
    rw [Update_unblocked_mem_call c T D env g o time_diff _ hu, Update_replan_mem_call]
    exact ⟨h, rfl⟩

/-- A replan leaves the recheck timer as it is. -/
theorem setTargetLocation_timer (c : Consts) (T : OwnerKind) (D : Behaviour)
    (env : Env) (s : St) (b : Bool) :
    (_setTargetLocation c T D env s b).gen.i_recheckDistance = s.gen.i_recheckDistance := by
  cases hpre : (env.i_target_isValid && env.i_target_IsInWorld
            && !hasUnitState s.owner c.UNIT_STAT_NOT_MOVE)
  · rw [setTargetLocation_blocked c T D env s b hpre]
  · simp only [Bool.and_eq_true, Bool.not_eq_true', Bool.not_eq_eq_eq_not, Bool.not_true] at hpre
    obtain ⟨⟨hv, hw⟩, hm⟩ := hpre
    cases hd : _setTargetLocation_destination env s.gen s.owner b with
    | none => rw [setTargetLocation_suppressed c T D env s b hd]
    | some dest =>
      rw [setTargetLocation_planned c T D env s b dest hv hw hm hd]
      simp only []
      split_ifs <;> rfl

/-- With the speed-changed flag set or a positive displacement test, the replan step is
the replan itself, called with the result of the displacement test on the state whose
timer has been advanced (and reset when it lapsed). -/
theorem Update_replan_active (c : Consts) (T : OwnerKind) (D : Behaviour) (env : Env)
    (s : St) (time_diff : Nat)
    (h : (s.gen.m_speedChanged
            || ((s.gen.i_recheckDistance.Update time_diff).Passed
                  && Update_targetMoved T env s.owner)) = true) :
    Update_replan c T D env s time_diff
      = _setTargetLocation c T D env
          { s with gen := { s.gen with i_recheckDistance :=
              if (s.gen.i_recheckDistance.Update time_diff).Passed then
                (s.gen.i_recheckDistance.Update time_diff).Reset 100
              else s.gen.i_recheckDistance.Update time_diff } }
          ((s.gen.i_recheckDistance.Update time_diff).Passed
            && Update_targetMoved T env s.owner) := by
  unfold Update_replan
  cases hp : (s.gen.i_recheckDistance.Update time_diff).Passed <;>
    cases hs : s.gen.m_speedChanged <;> cases ht : Update_targetMoved T env s.owner <;>
    simp_all

/-- The replan step always stores the advanced timer, reset to 100 when it lapsed. -/
theorem Update_replan_timer (c : Consts) (T : OwnerKind) (D : Behaviour) (env : Env)
    (s : St) (time_diff : Nat) :
    (Update_replan c T D env s time_diff).gen.i_recheckDistance
      = (if (s.gen.i_recheckDistance.Update time_diff).Passed then
          (s.gen.i_recheckDistance.Update time_diff).Reset 100
         else s.gen.i_recheckDistance.Update time_diff) := by
  cases h : (s.gen.m_speedChanged
            || ((s.gen.i_recheckDistance.Update time_diff).Passed
                  && Update_targetMoved T env s.owner))
  · simp only [Bool.or_eq_false_iff] at h
    rw [Update_replan_idle c T D env s time_diff h.1 h.2]
  · rw [Update_replan_active c T D env s time_diff h, setTargetLocation_timer]

/-- C5. In an `Update` that passes all blocking checks the replan is invoked exactly
when the speed-changed flag is set or the recheck timer lapsed on this tick with a
positive displacement test, and the hint passed is the result of the displacement test
(false when the timer did not lapse). In that case the state handed to the arrival step
is the result of `_setTargetLocation` with that hint on the state whose timer has been
advanced. When neither holds, the replan step leaves path, arrival flag, speed-changed
flag and owner as they were, and the whole tick neither allocates nor queries a
planner, launches nothing, keeps path and speed-changed flag, and sets the arrival flag
only through the arrival step. In both cases the timer is advanced by the elapsed time
and reset to 100 when it lapsed. -/
theorem replan_iff_speed_or_moved (c : Consts) (T : OwnerKind) (D : Behaviour) (env : Env)
    (g : Gen) (o : Owner) (time_diff : Nat) (hu : unblocked c env o = true) :
    (replanInvoked (Update c T D env { gen := g, owner := o, log := [] } time_diff).2.log = true
        ↔ (g.m_speedChanged = true
            ∨ ((g.i_recheckDistance.Update time_diff).Passed = true
                ∧ Update_targetMoved T env o = true)))
      ∧ (∀ b, Event.call_setTargetLocation b
            ∈ (Update c T D env { gen := g, owner := o, log := [] } time_diff).2.log
          → b = ((g.i_recheckDistance.Update time_diff).Passed && Update_targetMoved T env o))
      ∧ (g.m_speedChanged = false →
          ((g.i_recheckDistance.Update time_diff).Passed && Update_targetMoved T env o) = false →
          (Update_replan c T D env { gen := g, owner := o, log := [] } time_diff).gen.i_path
              = g.i_path
            ∧ (Update_replan c T D env { gen := g, owner := o, log := [] }
                time_diff).gen.i_targetReached = g.i_targetReached
            ∧ (Update_replan c T D env { gen := g, owner := o, log := [] }
                time_diff).gen.m_speedChanged = g.m_speedChanged
            ∧ (Update_replan c T D env { gen := g, owner := o, log := [] } time_diff).owner = o
            ∧ (Update_replan c T D env { gen := g, owner := o, log := [] } time_diff).log = []
            ∧ (Update c T D env { gen := g, owner := o, log := [] } time_diff).2.gen.i_path
                = g.i_path
            ∧ (Update c T D env { gen := g, owner := o, log := [] }
                time_diff).2.gen.m_speedChanged = g.m_speedChanged
            ∧ (Update c T D env { gen := g, owner := o, log := [] }
                time_diff).2.gen.i_targetReached
                = (g.i_targetReached || o.movespline.Finalized)
            ∧ Event.new_PathFinder
                ∉ (Update c T D env { gen := g, owner := o, log := [] } time_diff).2.log
            ∧ plannerQueried
                (Update c T D env { gen := g, owner := o, log := [] } time_diff).2.log = false
            ∧ replanSucceeded
                (Update c T D env { gen := g, owner := o, log := [] } time_diff).2.log
                  = false)
      ∧ (Update c T D env { gen := g, owner := o, log := [] } time_diff).2.gen.i_recheckDistance
          = (if (g.i_recheckDistance.Update time_diff).Passed then
              (g.i_recheckDistance.Update time_diff).Reset 100
             else g.i_recheckDistance.Update time_diff)
      ∧ ((g.m_speedChanged
            || ((g.i_recheckDistance.Update time_diff).Passed
                  && Update_targetMoved T env o)) = true →
          (Update c T D env { gen := g, owner := o, log := [] } time_diff).2
            = Update_arrival D env
                (_setTargetLocation c T D env
                  { gen := { g with i_recheckDistance :=
                      if (g.i_recheckDistance.Update time_diff).Passed then
                        (g.i_recheckDistance.Update time_diff).Reset 100
                      else g.i_recheckDistance.Update time_diff },
                    owner := o, log := [] }
                  ((g.i_recheckDistance.Update time_diff).Passed
                    && Update_targetMoved T env o)))
      ∧ ((g.m_speedChanged
            || ((g.i_recheckDistance.Update time_diff).Passed
                  && Update_targetMoved T env o)) = false →
          (Update c T D env { gen := g, owner := o, log := [] } time_diff).2
            = Update_arrival D env
                { gen := { g with i_recheckDistance :=
                    if (g.i_recheckDistance.Update time_diff).Passed then
                      (g.i_recheckDistance.Update time_diff).Reset 100
                    else g.i_recheckDistance.Update time_diff },
                  owner := o, log := [] }) := by
  refine ⟨Update_unblocked_replanInvoked c T D env g o time_diff hu, ?_, ?_, ?_, ?_, ?_⟩
  · intro b hb
    rw [Update_unblocked_mem_call c T D env g o time_diff b hu, Update_replan_mem_call] at hb
    exact hb.2
  · intro hs ht
    have hr := Update_replan_idle c T D env { gen := g, owner := o, log := [] } time_diff hs ht
    obtain ⟨hgen, extra, hlog, hex⟩ := Update_arrival_frame D env
      (Update_replan c T D env { gen := g, owner := o, log := [] } time_diff)
    rw [Update_unblocked c T D env _ time_diff hu]
    simp only []
    rw [hlog, hgen, hr]
    simp only [List.nil_append, true_and]
    refine ⟨?_, ?_, ?_⟩
    · intro hm
      rcases hex _ hm with h | h | h <;> cases h
    · unfold plannerQueried
      rw [List.any_eq_false]
      intro e he
      rcases hex _ he with h | h | h <;> rw [h] <;> simp
    · unfold replanSucceeded
      rw [List.any_eq_false]
      intro e he
      rcases hex _ he with h | h | h <;> rw [h] <;> simp
  · rw [Update_unblocked c T D env _ time_diff hu]
    simp only []
    rw [(Update_arrival_frame D env _).1]
    exact Update_replan_timer c T D env { gen := g, owner := o, log := [] } time_diff
  · intro h
    rw [Update_unblocked c T D env _ time_diff hu,
      Update_replan_active c T D env { gen := g, owner := o, log := [] } time_diff h]
  · intro h
    simp only [Bool.or_eq_false_iff] at h
    rw [Update_unblocked c T D env _ time_diff hu,
      Update_replan_idle c T D env { gen := g, owner := o, log := [] } time_diff h.1 h.2]

/-- Witness of C5: on the sample state a tick of ten time units (timer not lapsed, speed
not changed) invokes no replan, keeps the (absent) path and leaves the timer at 90; a
tick of a hundred time units (timer lapsed, target ten units from the final
destination) runs the replan with hint true, which allocates a planner, queries it for
the contact point and launches the path, and leaves the timer at 100. -/
theorem replan_iff_speed_or_moved_witness :
    unblocked sampleConsts sampleEnv sampleOwner = true
      ∧ replanInvoked (Update sampleConsts OwnerKind.Creature Behaviour.Chase sampleEnv
          { gen := sampleGen, owner := sampleOwner, log := [] } 10).2.log = false
      ∧ (Update sampleConsts OwnerKind.Creature Behaviour.Chase sampleEnv
          { gen := sampleGen, owner := sampleOwner, log := [] } 10).2.gen.i_path
            = sampleGen.i_path
      ∧ (Update sampleConsts OwnerKind.Creature Behaviour.Chase sampleEnv
          { gen := sampleGen, owner := sampleOwner, log := [] } 10).2.gen.i_recheckDistance
            = { i_expiryTime := 90 }
      ∧ (Update sampleConsts OwnerKind.Creature Behaviour.Chase sampleEnv
          { gen := sampleGen, owner := sampleOwner, log := [] } 100).2.log
            = [Event.call_setTargetLocation true, Event.new_PathFinder,
               Event.calculate { x := 9, y := 0, z := 0 } false,
               Event.Launch [origin, { x := 9, y := 0, z := 0 }] false]
      ∧ (Update sampleConsts OwnerKind.Creature Behaviour.Chase sampleEnv
          { gen := sampleGen, owner := sampleOwner, log := [] } 100).2.gen.i_recheckDistance
            = { i_expiryTime := 100 } := by
  have h := replan_iff_speed_or_moved sampleConsts OwnerKind.Creature Behaviour.Chase sampleEnv
    sampleGen sampleOwner 10 (by decide)
  have h2 := replan_iff_speed_or_moved sampleConsts OwnerKind.Creature Behaviour.Chase sampleEnv
    sampleGen sampleOwner 100 (by decide)
  have hmoved : Update_targetMoved OwnerKind.Creature sampleEnv sampleOwner = true := by
    norm_num [Update_targetMoved, IsWithinDist2d, distSq2d, GetTypeId, sampleEnv,
      sampleOwner, origin]
  have hactive := h2.2.2.2.2.1
  rw [hmoved] at hactive
  refine ⟨by decide, ?_, (h.2.2.1 rfl (by decide)).2.2.2.2.2.1, h.2.2.2.1.trans (by decide),
    (congrArg St.log (hactive (by decide))).trans (by decide),
    h2.2.2.2.1.trans (by decide)⟩
  cases hr : replanInvoked (Update sampleConsts OwnerKind.Creature Behaviour.Chase sampleEnv
      { gen := sampleGen, owner := sampleOwner, log := [] } 10).2.log
  · rfl
  · exact absurd (h.1.1 hr) (by decide)

/-- The planner records of a log. -/
theorem plannerQueried_iff (l : List Event) :
    plannerQueried l = true ↔ ∃ d f, Event.calculate d f ∈ l := by
  unfold plannerQueried
  rw [List.any_eq_true]
  constructor
  · rintro ⟨e, he, hm⟩
    cases e <;> simp at hm
    exact ⟨_, _, he⟩
  · rintro ⟨d, f, hb⟩
    exact ⟨_, hb, rfl⟩

/-- C6. When a replan passes its preconditions, is not suppressed, and the planner's
answer carries the no-path flag, the replan is aborted: the owner (state bits and
running motion) is exactly as before, the arrival flag and the speed-changed flag keep
their values, the log holds the planner allocation (if any) and the query but no launch;
and when the speed-changed flag was set, every following unblocked `Update` on the
resulting generator invokes the replan again. -/
theorem replan_nopath_aborts (c : Consts) (T : OwnerKind) (D : Behaviour) (env : Env)
    (g : Gen) (o : Owner) (b : Bool) (dest : Vector3)
    (hv : env.i_target_isValid = true) (hw : env.i_target_IsInWorld = true)
    (hm : hasUnitState o c.UNIT_STAT_NOT_MOVE = false)
    (hd : _setTargetLocation_destination env g o b = some dest)
    (hn : ((env.calculate (g.i_path.getD env.new_PathFinder) dest
              (_setTargetLocation_forceDest c T o)).getPathType &&& c.PATHFIND_NOPATH) ≠ 0) :
    (_setTargetLocation c T D env { gen := g, owner := o, log := [] } b).owner = o
      ∧ (_setTargetLocation c T D env { gen := g, owner := o, log := [] } b).gen.i_targetReached
          = g.i_targetReached
      ∧ (_setTargetLocation c T D env { gen := g, owner := o, log := [] } b).gen.m_speedChanged
          = g.m_speedChanged
      ∧ (_setTargetLocation c T D env { gen := g, owner := o, log := [] } b).log
          = [Event.call_setTargetLocation b]
            ++ (if g.i_path.isNone then [Event.new_PathFinder] else [])
            ++ [Event.calculate dest (_setTargetLocation_forceDest c T o)]
      ∧ replanSucceeded (_setTargetLocation c T D env { gen := g, owner := o, log := [] } b).log
          = false
      ∧ (g.m_speedChanged = true → ∀ (env2 : Env) (o2 : Owner) (time_diff : Nat),
          unblocked c env2 o2 = true →
          replanInvoked (Update c T D env2
            { gen := (_setTargetLocation c T D env { gen := g, owner := o, log := [] } b).gen,
              owner := o2, log := [] } time_diff).2.log = true) := by
  have hp := setTargetLocation_planned c T D env { gen := g, owner := o, log := [] } b dest
    hv hw hm hd
  have hn2 : ((env.calculate (g.i_path.getD env.new_PathFinder) dest
      (_setTargetLocation_forceDest c T o)).getPathType &&& c.PATHFIND_NOPATH != 0) = true := by
    simpa using hn
  simp only [hn2, if_true, List.nil_append] at hp
  have hlog : replanSucceeded ([Event.call_setTargetLocation b]
      ++ (if g.i_path.isNone then [Event.new_PathFinder] else [])
      ++ [Event.calculate dest (_setTargetLocation_forceDest c T o)]) = false := by
    cases g.i_path <;> simp [replanSucceeded]
  refine ⟨by rw [hp], by rw [hp], by rw [hp], by rw [hp], by rw [hp]; exact hlog, ?_⟩
  intro hs env2 o2 time_diff hu
  rw [Update_unblocked_replanInvoked c T D env2 _ o2 time_diff hu, hp]
  exact Or.inl hs

/-- Witness of C6: with the planner that finds no path, the replan of the sample state
with set speed-changed flag leaves the owner alone and keeps the flag. -/
theorem replan_nopath_aborts_witness :
    (_setTargetLocation sampleConsts OwnerKind.Creature Behaviour.Chase noPathEnv
        { gen := speedChangedGen, owner := sampleOwner, log := [] } false).owner = sampleOwner
      ∧ (_setTargetLocation sampleConsts OwnerKind.Creature Behaviour.Chase noPathEnv
        { gen := speedChangedGen, owner := sampleOwner, log := [] } false).gen.m_speedChanged
          = true :=
  have h := replan_nopath_aborts sampleConsts OwnerKind.Creature Behaviour.Chase noPathEnv
    speedChangedGen sampleOwner false sampleEnv.GetContactPoint rfl rfl (by decide)
    (by decide) (by decide)
  ⟨h.1, h.2.2.1⟩

/-- C7. When a replan passes its preconditions, is not suppressed, and the planner's
answer is a usable path (no no-path flag), then afterwards the owner's state is the old
one with the behaviour's moving bit added (chase-moving for Chase, follow-moving for
Follow), so every bit of that mask is set; the arrival flag and the speed-changed flag
are false; the stored path is the planner's answer; and the last record of the log is
the launch of the motion executor with exactly the answer's waypoints and with walk mode
`EnableWalking()`, the owner's spline being the one that launch produced. -/
theorem replan_success_effects (c : Consts) (T : OwnerKind) (D : Behaviour) (env : Env)
    (g : Gen) (o : Owner) (b : Bool) (dest : Vector3)
    (hv : env.i_target_isValid = true) (hw : env.i_target_IsInWorld = true)
    (hm : hasUnitState o c.UNIT_STAT_NOT_MOVE = false)
    (hd : _setTargetLocation_destination env g o b = some dest)
    (hn : ((env.calculate (g.i_path.getD env.new_PathFinder) dest
              (_setTargetLocation_forceDest c T o)).getPathType &&& c.PATHFIND_NOPATH) = 0) :
    (_setTargetLocation c T D env { gen := g, owner := o, log := [] } b).owner.m_state
        = o.m_state ||| UNIT_STAT_MOVE c D
      ∧ (_setTargetLocation c T D env { gen := g, owner := o, log := [] } b).owner.m_state
          &&& UNIT_STAT_MOVE c D = UNIT_STAT_MOVE c D
      ∧ UNIT_STAT_MOVE c Behaviour.Chase = c.UNIT_STAT_CHASE_MOVE
      ∧ UNIT_STAT_MOVE c Behaviour.Follow = c.UNIT_STAT_FOLLOW_MOVE
      ∧ (_setTargetLocation c T D env { gen := g, owner := o, log := [] } b).gen.i_targetReached
          = false
      ∧ (_setTargetLocation c T D env { gen := g, owner := o, log := [] } b).gen.m_speedChanged
          = false
      ∧ (_setTargetLocation c T D env { gen := g, owner := o, log := [] } b).gen.i_path
          = some (env.calculate (g.i_path.getD env.new_PathFinder) dest
              (_setTargetLocation_forceDest c T o))
      ∧ (_setTargetLocation c T D env { gen := g, owner := o, log := [] } b).log
          = [Event.call_setTargetLocation b]
            ++ (if g.i_path.isNone then [Event.new_PathFinder] else [])
            ++ [Event.calculate dest (_setTargetLocation_forceDest c T o)]
            ++ [Event.Launch
                (env.calculate (g.i_path.getD env.new_PathFinder) dest
                  (_setTargetLocation_forceDest c T o)).getPath
                (EnableWalking T D env)]
      ∧ (_setTargetLocation c T D env { gen := g, owner := o, log := [] } b).owner.movespline
          = env.Launch (_addUnitStateMove c D o)
              (env.calculate (g.i_path.getD env.new_PathFinder) dest
                (_setTargetLocation_forceDest c T o)).getPath
              (EnableWalking T D env) := by
  have hp := setTargetLocation_planned c T D env { gen := g, owner := o, log := [] } b dest
    hv hw hm hd
  simp only [hn, bne_self_eq_false, Bool.false_eq_true, if_false, List.nil_append] at hp
  refine ⟨by rw [hp]; rfl, ?_, rfl, rfl, by rw [hp], by rw [hp], by rw [hp], by rw [hp],
    by rw [hp]⟩
  rw [hp]
  show (o.m_state ||| UNIT_STAT_MOVE c D) &&& UNIT_STAT_MOVE c D = UNIT_STAT_MOVE c D
  apply Nat.eq_of_testBit_eq
  intro i
  rw [Nat.testBit_and, Nat.testBit_or]
  cases o.m_state.testBit i <;> cases (UNIT_STAT_MOVE c D).testBit i <;> rfl

/-- Witness of C7: the replan of the sample state launches the straight path to the
contact point at a run and sets the chase-moving bit. -/
theorem replan_success_effects_witness :
    (_setTargetLocation sampleConsts OwnerKind.Creature Behaviour.Chase sampleEnv
        { gen := sampleGen, owner := sampleOwner, log := [] } true).owner.m_state = 0x22000
      ∧ (_setTargetLocation sampleConsts OwnerKind.Creature Behaviour.Chase sampleEnv
        { gen := sampleGen, owner := sampleOwner, log := [] } true).log
          = [Event.call_setTargetLocation true, Event.new_PathFinder,
             Event.calculate { x := 9, y := 0, z := 0 } false,
             Event.Launch [origin, { x := 9, y := 0, z := 0 }] false] :=
  have h := replan_success_effects sampleConsts OwnerKind.Creature Behaviour.Chase sampleEnv
    sampleGen sampleOwner true sampleEnv.GetContactPoint rfl rfl (by decide)
    (by decide) (by decide)
  ⟨h.1.trans (by decide), h.2.2.2.2.2.2.2.1.trans (by decide)⟩

/-- C8. A replan called with an invalid target handle, with a target that is not in the
world, or with a movement-locked owner does nothing: generator fields and owner are as
before and the log gains the invocation record only (no planner allocation, no query,
no launch). -/
theorem replan_precondition_noop (c : Consts) (T : OwnerKind) (D : Behaviour)
    (env : Env) (s : St) (updateDestination : Bool)
    (h : env.i_target_isValid = false ∨ env.i_target_IsInWorld = false
          ∨ hasUnitState s.owner c.UNIT_STAT_NOT_MOVE = true) :
    _setTargetLocation c T D env s updateDestination
      = { gen := s.gen, owner := s.owner,
          log := s.log ++ [Event.call_setTargetLocation updateDestination] } := by
  unfold _setTargetLocation
  rcases h with h | h | h <;> simp [h]

/-- Witness of C8: the replan of the rooted sample owner does nothing. -/
theorem replan_precondition_noop_witness :
    _setTargetLocation sampleConsts OwnerKind.Creature Behaviour.Chase sampleEnv
        { gen := speedChangedGen, owner := rootedOwner, log := [] } true
      = { gen := speedChangedGen, owner := rootedOwner,
          log := [Event.call_setTargetLocation true] } :=
  replan_precondition_noop sampleConsts OwnerKind.Creature Behaviour.Chase sampleEnv
    { gen := speedChangedGen, owner := rootedOwner, log := [] } true
    (Or.inr (Or.inr (by decide)))

/-- Planner records in the log of a replan that starts on an empty log: at most the one
query for the selected destination. -/
theorem setTargetLocation_mem_calculate (c : Consts) (T : OwnerKind) (D : Behaviour)
    (env : Env) (g : Gen) (o : Owner) (b : Bool) (d : Vector3) (f : Bool) :
    Event.calculate d f ∈ (_setTargetLocation c T D env { gen := g, owner := o, log := [] } b).log
      ↔ (env.i_target_isValid = true ∧ env.i_target_IsInWorld = true
          ∧ hasUnitState o c.UNIT_STAT_NOT_MOVE = false
          ∧ _setTargetLocation_destination env g o b = some d
          ∧ f = _setTargetLocation_forceDest c T o) := by
  cases hpre : (env.i_target_isValid && env.i_target_IsInWorld
            && !hasUnitState o c.UNIT_STAT_NOT_MOVE)
  · rw [setTargetLocation_blocked c T D env _ b hpre]
    cases hv : env.i_target_isValid <;> cases hw : env.i_target_IsInWorld <;>
      cases hm : hasUnitState o c.UNIT_STAT_NOT_MOVE <;> simp_all
  · simp only [Bool.and_eq_true, Bool.not_eq_true', Bool.not_eq_eq_eq_not, Bool.not_true] at hpre
    obtain ⟨⟨hv, hw⟩, hm⟩ := hpre
    cases hd : _setTargetLocation_destination env g o b with
    | none =>
      rw [setTargetLocation_suppressed c T D env _ b hd]
      simp
    | some dest =>
      rw [setTargetLocation_planned c T D env _ b dest hv hw hm hd]
      simp only []
      split_ifs <;> simp [hv, hw, hm, eq_comm]

/-- Counterexample to C9 as stated: a replan with valid target and free owner, hint true
(not a pure refresh), offset 5 (nonzero), that is not suppressed (the owner's motion is
finished) queries the planner for the owner's own position, the origin, and not for the
point returned by `GetClosePoint`, which is (5, 0, 0). -/
theorem replan_destination_counterexample :
    sampleEnv.i_target_isValid = true ∧ sampleEnv.i_target_IsInWorld = true
      ∧ hasUnitState sampleOwner sampleConsts.UNIT_STAT_NOT_MOVE = false
      ∧ followGen.i_offset ≠ 0
      ∧ _setTargetLocation_destination sampleEnv followGen sampleOwner true
          = some sampleOwner.GetPosition
      ∧ Event.calculate sampleOwner.GetPosition false
          ∈ (_setTargetLocation sampleConsts OwnerKind.Creature Behaviour.Follow sampleEnv
              { gen := followGen, owner := sampleOwner, log := [] } true).log
      ∧ sampleOwner.GetPosition
          ≠ sampleEnv.GetClosePoint sampleOwner.GetObjectBoundingRadius followGen.i_offset
              followGen.i_angle := by
  have hd : _setTargetLocation_destination sampleEnv followGen sampleOwner true
      = some sampleOwner.GetPosition := by
    norm_num [_setTargetLocation_destination, followGen, sampleGen, sampleEnv, sampleOwner]
  refine ⟨rfl, rfl, by decide, by norm_num [followGen], hd, ?_, ?_⟩
  · rw [setTargetLocation_mem_calculate]
    exact ⟨rfl, rfl, by decide, hd, by decide⟩
  · norm_num [sampleOwner, sampleEnv, followGen, origin]

/-- C9, amended. In a replan that passes its preconditions, is not a pure speed refresh
(hint true or no path yet) and is not suppressed, the destination passed to the planner
is: the target's contact point when the offset is 0; the point at distance `offset` and
angle `angle` from the target (`GetClosePoint`) when the offset is nonzero and the target
is not within twice the offset of the owner; the owner's own position when the offset
is nonzero and the target is within twice the offset (the owner's motion is then
finished). The planner is queried for this destination and for no other. -/
theorem replan_destination (c : Consts) (T : OwnerKind) (D : Behaviour) (env : Env)
    (g : Gen) (o : Owner) (b : Bool) (dest : Vector3)
    (hv : env.i_target_isValid = true) (hw : env.i_target_IsInWorld = true)
    (hm : hasUnitState o c.UNIT_STAT_NOT_MOVE = false)
    (hr : b = true ∨ g.i_path = none)
    (hd : _setTargetLocation_destination env g o b = some dest) :
    (g.i_offset = 0 → dest = env.GetContactPoint)
      ∧ (g.i_offset ≠ 0 → env.IsWithinDistInMap (2 * g.i_offset) = false →
          dest = env.GetClosePoint o.GetObjectBoundingRadius g.i_offset g.i_angle)
      ∧ (g.i_offset ≠ 0 → env.IsWithinDistInMap (2 * g.i_offset) = true →
          dest = o.GetPosition ∧ o.movespline.Finalized = true)
      ∧ Event.calculate dest (_setTargetLocation_forceDest c T o)
          ∈ (_setTargetLocation c T D env { gen := g, owner := o, log := [] } b).log
      ∧ (∀ d f, Event.calculate d f
            ∈ (_setTargetLocation c T D env { gen := g, owner := o, log := [] } b).log
          → d = dest) := by
  have hsel : (if (g.i_offset != 0 && env.IsWithinDistInMap (2 * g.i_offset)) = true then
        (if (!o.movespline.Finalized) = true then none else some o.GetPosition)
      else if (g.i_offset == 0) = true then some env.GetContactPoint
      else some (env.GetClosePoint o.GetObjectBoundingRadius g.i_offset g.i_angle))
      = some dest := by
    rw [← hd]
    unfold _setTargetLocation_destination
    rcases hr with hr | hr
    · subst hr; rfl
    · rw [hr]; cases b <;> rfl
  refine ⟨?_, ?_, ?_, ?_, ?_⟩
  · intro h0
    simp [h0] at hsel
    exact hsel.symm
  · intro h0 hfar
    simp [h0, hfar] at hsel
    exact hsel.symm
  · intro h0 hnear
    cases hf : o.movespline.Finalized <;> simp [h0, hnear, hf] at hsel
    exact ⟨hsel.symm, rfl⟩
  · rw [setTargetLocation_mem_calculate]
    exact ⟨hv, hw, hm, hd, rfl⟩
  · intro d f hmem
    rw [setTargetLocation_mem_calculate] at hmem
    have := hmem.2.2.2.1
    rw [hd] at this
    exact (Option.some.inj this).symm

/-- Witness of C9 (amended): for the follow generator and the sample owner, whose motion
is finished and whose target is within twice the offset, the planner is queried for the
owner's own position. -/
theorem replan_destination_witness :
    Event.calculate sampleOwner.GetPosition
        (_setTargetLocation_forceDest sampleConsts OwnerKind.Creature sampleOwner)
      ∈ (_setTargetLocation sampleConsts OwnerKind.Creature Behaviour.Follow sampleEnv
          { gen := followGen, owner := sampleOwner, log := [] } true).log :=
  (replan_destination sampleConsts OwnerKind.Creature Behaviour.Follow sampleEnv followGen
    sampleOwner true sampleOwner.GetPosition rfl rfl (by decide) (Or.inl rfl)
    (by norm_num [_setTargetLocation_destination, followGen, sampleGen, sampleEnv,
      sampleOwner])).2.2.2.1

/-- C10. In a replan that passes its preconditions with hint false while a path exists,
the destination is the end position of that path, whatever the target, the offset and
the angle are; the planner is not allocated anew: the one query of the call is for
that end position and is made on the existing path object, whose answer becomes the
stored path. With hint false and no path yet the destination is selected, and the whole call
proceeds, as for hint true (the invocation record apart). -/
theorem replan_speed_refresh (c : Consts) (T : OwnerKind) (D : Behaviour) (env : Env)
    (g : Gen) (o : Owner)
    (hv : env.i_target_isValid = true) (hw : env.i_target_IsInWorld = true)
    (hm : hasUnitState o c.UNIT_STAT_NOT_MOVE = false) :
    (∀ p : PathFinder, g.i_path = some p →
        _setTargetLocation_destination env g o false = some p.getEndPosition
          ∧ (∀ (env2 : Env) (off ang : ℚ),
              _setTargetLocation_destination env2 { g with i_offset := off, i_angle := ang } o
                false = some p.getEndPosition)
          ∧ Event.new_PathFinder
              ∉ (_setTargetLocation c T D env { gen := g, owner := o, log := [] } false).log
          ∧ Event.calculate p.getEndPosition (_setTargetLocation_forceDest c T o)
              ∈ (_setTargetLocation c T D env { gen := g, owner := o, log := [] } false).log
          ∧ (∀ d f, Event.calculate d f
                ∈ (_setTargetLocation c T D env { gen := g, owner := o, log := [] } false).log
              → d = p.getEndPosition)
          ∧ (_setTargetLocation c T D env { gen := g, owner := o, log := [] } false).gen.i_path
              = some (env.calculate p p.getEndPosition (_setTargetLocation_forceDest c T o)))
      ∧ (g.i_path = none →
          _setTargetLocation_destination env g o false
              = _setTargetLocation_destination env g o true
            ∧ (_setTargetLocation c T D env { gen := g, owner := o, log := [] } false).gen
              = (_setTargetLocation c T D env { gen := g, owner := o, log := [] } true).gen
            ∧ (_setTargetLocation c T D env { gen := g, owner := o, log := [] } false).owner
              = (_setTargetLocation c T D env { gen := g, owner := o, log := [] } true).owner
            ∧ (_setTargetLocation c T D env { gen := g, owner := o, log := [] } false).log.tail
              = (_setTargetLocation c T D env { gen := g, owner := o, log := [] }
                  true).log.tail) := by
  constructor
  · intro p hp
    have hd : _setTargetLocation_destination env g o false = some p.getEndPosition := by
      unfold _setTargetLocation_destination
      rw [hp]
    have hpl := setTargetLocation_planned c T D env { gen := g, owner := o, log := [] } false
      p.getEndPosition hv hw hm hd
    simp only [hp, Option.getD_some, Option.isNone_some, Bool.false_eq_true, if_false,
      List.nil_append, List.append_nil] at hpl
    refine ⟨hd, ?_, ?_, ?_, ?_, ?_⟩
    · intro env2 off ang
      unfold _setTargetLocation_destination
      simp only [hp]
    · rw [hpl]
      split_ifs <;> simp
    · rw [setTargetLocation_mem_calculate]
      exact ⟨hv, hw, hm, hd, rfl⟩
    · intro d f hmem
      rw [setTargetLocation_mem_calculate] at hmem
      have := hmem.2.2.2.1
      rw [hd] at this
      exact (Option.some.inj this).symm
    · rw [hpl]
      split_ifs <;> rfl
  · intro hnone
    have hd : _setTargetLocation_destination env g o false
        = _setTargetLocation_destination env g o true := by
      unfold _setTargetLocation_destination
      rw [hnone]
    refine ⟨hd, ?_⟩
    cases hsel : _setTargetLocation_destination env g o true with
    | none =>
      rw [setTargetLocation_suppressed c T D env _ true hsel,
        setTargetLocation_suppressed c T D env _ false (hd.trans hsel)]
      exact ⟨rfl, rfl, rfl⟩
    | some dest =>
      rw [setTargetLocation_planned c T D env _ true dest hv hw hm hsel,
        setTargetLocation_planned c T D env _ false dest hv hw hm (hd.trans hsel)]
      simp only []
      split_ifs <;> exact ⟨rfl, rfl, rfl⟩

/-- Witness of C10: the speed refresh of the follow generator that holds the sample path
queries the planner for the end of that path, (4, 4, 0). -/
theorem replan_speed_refresh_witness :
    _setTargetLocation_destination sampleEnv followGenWithPath sampleOwner false
        = some { x := 4, y := 4, z := 0 }
      ∧ Event.new_PathFinder
          ∉ (_setTargetLocation sampleConsts OwnerKind.Creature Behaviour.Follow sampleEnv
              { gen := followGenWithPath, owner := sampleOwner, log := [] } false).log :=
  have h := (replan_speed_refresh sampleConsts OwnerKind.Creature Behaviour.Follow sampleEnv
    followGenWithPath sampleOwner rfl rfl (by decide)).1 samplePath rfl
  ⟨h.1, h.2.2.1⟩

/-- A launch recorded by a replan that starts on an empty log was made with a valid
target handle and with walk mode `EnableWalking()`. -/
theorem setTargetLocation_mem_Launch (c : Consts) (T : OwnerKind) (D : Behaviour)
    (env : Env) (g : Gen) (o : Owner) (b : Bool) (path : List Vector3) (walk : Bool)
    (h : Event.Launch path walk
          ∈ (_setTargetLocation c T D env { gen := g, owner := o, log := [] } b).log) :
    env.i_target_isValid = true ∧ walk = EnableWalking T D env := by
  cases hpre : (env.i_target_isValid && env.i_target_IsInWorld
            && !hasUnitState o c.UNIT_STAT_NOT_MOVE)
  · rw [setTargetLocation_blocked c T D env _ b hpre] at h
    simp at h
  · simp only [Bool.and_eq_true, Bool.not_eq_true', Bool.not_eq_eq_eq_not, Bool.not_true] at hpre
    obtain ⟨⟨hv, hw⟩, hm⟩ := hpre
    cases hd : _setTargetLocation_destination env g o b with
    | none =>
      rw [setTargetLocation_suppressed c T D env _ b hd] at h
      simp at h
    | some dest =>
      rw [setTargetLocation_planned c T D env _ b dest hv hw hm hd] at h
      simp only [] at h
      split_ifs at h <;> simp at h
      all_goals exact ⟨hv, h.2⟩

/-- C11. On a successful replan the motion executor is launched with the walk flag of
the gait policy: for Follow with an autonomously controlled (Creature) owner the flag is
true exactly when the target is walking, for Follow with a player-controlled owner it is
false, and for Chase it is false for every owner kind; no launch with another flag is
recorded. -/
theorem walk_flag_policy (c : Consts) (T : OwnerKind) (D : Behaviour) (env : Env)
    (g : Gen) (o : Owner) (b : Bool) (dest : Vector3)
    (hv : env.i_target_isValid = true) (hw : env.i_target_IsInWorld = true)
    (hm : hasUnitState o c.UNIT_STAT_NOT_MOVE = false)
    (hd : _setTargetLocation_destination env g o b = some dest)
    (hn : ((env.calculate (g.i_path.getD env.new_PathFinder) dest
              (_setTargetLocation_forceDest c T o)).getPathType &&& c.PATHFIND_NOPATH) = 0) :
    Event.Launch
        (env.calculate (g.i_path.getD env.new_PathFinder) dest
          (_setTargetLocation_forceDest c T o)).getPath (spec_walkFlag T D env)
      ∈ (_setTargetLocation c T D env { gen := g, owner := o, log := [] } b).log
      ∧ (∀ path walk, Event.Launch path walk
            ∈ (_setTargetLocation c T D env { gen := g, owner := o, log := [] } b).log
          → walk = spec_walkFlag T D env)
      ∧ spec_walkFlag OwnerKind.Creature Behaviour.Follow env = env.target_IsWalking
      ∧ spec_walkFlag OwnerKind.Player Behaviour.Follow env = false
      ∧ spec_walkFlag T Behaviour.Chase env = false := by
  have hwalk : EnableWalking T D env = spec_walkFlag T D env := by
    cases T <;> cases D <;> simp [EnableWalking, spec_walkFlag, hv]
  have hp := setTargetLocation_planned c T D env { gen := g, owner := o, log := [] } b dest
    hv hw hm hd
  simp only [hn, bne_self_eq_false, Bool.false_eq_true, if_false, List.nil_append] at hp
  refine ⟨?_, ?_, rfl, rfl, ?_⟩
  · rw [hp, hwalk]
    simp
  · intro path walk hmem
    rw [(setTargetLocation_mem_Launch c T D env g o b path walk hmem).2, hwalk]
  · cases T <;> rfl

/-- Witness of C11: a creature that follows the walking sample target is launched at a
walk. -/
theorem walk_flag_policy_witness :
    Event.Launch [origin, { x := 25, y := 0, z := 0 }] true
      ∈ (_setTargetLocation sampleConsts OwnerKind.Creature Behaviour.Follow farEnv
          { gen := followGen, owner := followOwner, log := [] } true).log :=
  (walk_flag_policy sampleConsts OwnerKind.Creature Behaviour.Follow farEnv followGen
    followOwner true { x := 25, y := 0, z := 0 } rfl rfl (by decide)
    (by norm_num [_setTargetLocation_destination, followGen, sampleGen, farEnv, sampleEnv,
      followOwner, sampleOwner])
    (by decide)).1

/-- C13. A replan that passes its preconditions and is not a pure speed refresh (hint
true or no path yet) is suppressed when the offset is greater than 0, the target is
within twice the offset of the owner and the owner's motion has not finished: generator
fields and owner are as before and the log gains the invocation record only (no planner
allocation, no query, no launch). -/
theorem replan_micro_movement_suppressed (c : Consts) (T : OwnerKind) (D : Behaviour)
    (env : Env) (g : Gen) (o : Owner) (b : Bool)
    (hr : b = true ∨ g.i_path = none)
    (hoff : 0 < g.i_offset)
    (hnear : env.IsWithinDistInMap (2 * g.i_offset) = true)
    (hmov : o.movespline.Finalized = false) :
    _setTargetLocation_destination env g o b = none
      ∧ _setTargetLocation c T D env { gen := g, owner := o, log := [] } b
          = { gen := g, owner := o, log := [Event.call_setTargetLocation b] } := by
  have hd : _setTargetLocation_destination env g o b = none := by
    have hne : (g.i_offset != 0) = true := by
      simpa using (ne_of_gt hoff)
    unfold _setTargetLocation_destination
    rcases hr with hr | hr
    · subst hr
      simp [hne, hnear, hmov]
    · rw [hr]
      cases b <;> simp [hne, hnear, hmov]
  exact ⟨hd, setTargetLocation_suppressed c T D env _ b hd⟩

/-- Witness of C13: the follow generator (offset 5) with the target ten units away and
the owner still moving suppresses the replan. -/
theorem replan_micro_movement_suppressed_witness :
    _setTargetLocation sampleConsts OwnerKind.Creature Behaviour.Follow sampleEnv
        { gen := followGen, owner := followMovingOwner, log := [] } true
      = { gen := followGen, owner := followMovingOwner,
          log := [Event.call_setTargetLocation true] } :=
  (replan_micro_movement_suppressed sampleConsts OwnerKind.Creature Behaviour.Follow sampleEnv
    followGen followMovingOwner true (Or.inl rfl) (by norm_num [followGen])
    (by norm_num [followGen, sampleGen, sampleEnv]) rfl).2

/-! ## Lemmas on unit state bits -/

/-- Bits of a 32 bit state after `clearUnitState`: those of the state that are not in
the mask. -/
theorem clearUnitState_testBit (o : Owner) (f : Nat) (h32 : o.m_state < 2 ^ 32) (i : Nat) :
    (clearUnitState o f).m_state.testBit i = (o.m_state.testBit i && !f.testBit i) := by
  have hmask : (0xFFFFFFFF : Nat) = 2 ^ 32 - 1 := by norm_num
  show (o.m_state &&& (0xFFFFFFFF ^^^ f)).testBit i = _
  rw [Nat.testBit_and, Nat.testBit_xor, hmask, Nat.testBit_two_pow_sub_one]
  by_cases hi : i < 32
  · simp [hi]
  · have hz : o.m_state.testBit i = false := by
      apply Nat.testBit_eq_false_of_lt
      calc o.m_state < 2 ^ 32 := h32
        _ ≤ 2 ^ i := Nat.pow_le_pow_right (by norm_num) (by omega)
    simp [hz]

/-- Only the state mask is written by `clearUnitState`. -/
theorem clearUnitState_frame (o : Owner) (f : Nat) :
    clearUnitState o f = { o with m_state := (clearUnitState o f).m_state } := rfl

/-- The speed sync leaves the generator fields alone. -/
theorem updateSpeed_gen (T : OwnerKind) (env : Env) (s : St) :
    (_updateSpeed T env s).gen = s.gen := by
  unfold _updateSpeed
  cases T <;> simp only []
  split_ifs <;> rfl

/-- The speed sync, as a case distinction on the companion test of lines 219-220. -/
theorem updateSpeed_eq (T : OwnerKind) (env : Env) (s : St) :
    _updateSpeed T env s
      = (if T = OwnerKind.Creature ∧ s.owner.IsPet = true ∧ env.i_target_isValid = true
            ∧ env.target_GetObjectGuid = s.owner.GetOwnerGuid then
          { s with
            owner := env.UpdateSpeed
              (env.UpdateSpeed (env.UpdateSpeed s.owner UnitMoveType.MOVE_RUN true)
                UnitMoveType.MOVE_WALK true) UnitMoveType.MOVE_SWIM true,
            log := s.log ++ [Event.UpdateSpeed UnitMoveType.MOVE_RUN true,
                             Event.UpdateSpeed UnitMoveType.MOVE_WALK true,
                             Event.UpdateSpeed UnitMoveType.MOVE_SWIM true] }
         else s) := by
  unfold _updateSpeed
  cases T <;> cases hp : s.owner.IsPet <;> cases hv : env.i_target_isValid <;>
    by_cases hg : env.target_GetObjectGuid = s.owner.GetOwnerGuid <;> simp [hp, hv, hg]

/-- C12. `Finalize` and `Interrupt` of the chase behaviour are the same operation: the
owner's state loses exactly the chase-active and chase-moving bits, every other bit and
every other owner field is as before, and generator fields and log are untouched.
`Finalize` and `Interrupt` of the follow behaviour are the same operation: the owner's
state first loses exactly the follow-active and follow-moving bits, every other bit and
owner field being as before, then the speed sync runs on that owner; the generator
fields are untouched, and when the speed sync does not write the state mask the final
state has exactly those bits. -/
theorem finalize_interrupt_clear_bits (c : Consts) (T : OwnerKind) (env : Env) (s : St)
    (h32 : s.owner.m_state < 2 ^ 32) :
    Chase_Finalize c s = Chase_Interrupt c s
      ∧ (Chase_Finalize c s).gen = s.gen
      ∧ (Chase_Finalize c s).log = s.log
      ∧ (Chase_Finalize c s).owner
          = { s.owner with m_state := (Chase_Finalize c s).owner.m_state }
      ∧ (∀ i, (Chase_Finalize c s).owner.m_state.testBit i
          = (s.owner.m_state.testBit i
              && !(c.UNIT_STAT_CHASE.testBit i || c.UNIT_STAT_CHASE_MOVE.testBit i)))
      ∧ Follow_Finalize c T env s = Follow_Interrupt c T env s
      ∧ (Follow_Finalize c T env s).gen = s.gen
      ∧ (∃ o1 : Owner,
          o1 = { s.owner with m_state := o1.m_state }
            ∧ (∀ i, o1.m_state.testBit i
                = (s.owner.m_state.testBit i
                    && !(c.UNIT_STAT_FOLLOW.testBit i || c.UNIT_STAT_FOLLOW_MOVE.testBit i)))
            ∧ Follow_Finalize c T env s = _updateSpeed T env { s with owner := o1 })
      ∧ ((∀ (o : Owner) (m : UnitMoveType) (f : Bool), (env.UpdateSpeed o m f).m_state = o.m_state)
          → ∀ i, (Follow_Finalize c T env s).owner.m_state.testBit i
              = (s.owner.m_state.testBit i
                  && !(c.UNIT_STAT_FOLLOW.testBit i || c.UNIT_STAT_FOLLOW_MOVE.testBit i))) := by
  refine ⟨rfl, rfl, rfl, rfl, ?_, rfl, ?_, ?_, ?_⟩
  · intro i
    show (clearUnitState s.owner (c.UNIT_STAT_CHASE ||| c.UNIT_STAT_CHASE_MOVE)).m_state.testBit i
      = _
    rw [clearUnitState_testBit _ _ h32, Nat.testBit_or]
  · unfold Follow_Finalize
    rw [updateSpeed_gen]
  · refine ⟨clearUnitState s.owner (c.UNIT_STAT_FOLLOW ||| c.UNIT_STAT_FOLLOW_MOVE), rfl, ?_, rfl⟩
    intro i
    rw [clearUnitState_testBit _ _ h32, Nat.testBit_or]
  · intro hkeep i
    have hm : (Follow_Finalize c T env s).owner.m_state
        = (clearUnitState s.owner (c.UNIT_STAT_FOLLOW ||| c.UNIT_STAT_FOLLOW_MOVE)).m_state := by
      unfold Follow_Finalize
      rw [updateSpeed_eq]
      split_ifs
      · simp only [hkeep]
      · rfl
    rw [hm, clearUnitState_testBit _ _ h32, Nat.testBit_or]

/-- Witness of C12: `Finalize` of the chase on the chasing sample owner (state 0x22001)
leaves state 0x1; `Finalize` of the follow on the pet (state 0x44001) leaves state 0x1
before the speed sync. -/
theorem finalize_interrupt_clear_bits_witness :
    (Chase_Finalize sampleConsts { gen := sampleGen, owner := chasingOwner, log := [] }).owner.m_state
        = 1
      ∧ Chase_Finalize sampleConsts { gen := sampleGen, owner := chasingOwner, log := [] }
        = Chase_Interrupt sampleConsts { gen := sampleGen, owner := chasingOwner, log := [] }
      ∧ (Follow_Finalize sampleConsts OwnerKind.Creature sampleEnv
          { gen := followGen, owner := petOwner, log := [] }).gen = followGen :=
  have h := finalize_interrupt_clear_bits sampleConsts OwnerKind.Creature sampleEnv
    { gen := sampleGen, owner := chasingOwner, log := [] } (by decide)
  have h2 := finalize_interrupt_clear_bits sampleConsts OwnerKind.Creature sampleEnv
    { gen := followGen, owner := petOwner, log := [] } (by decide)
  ⟨by decide, h.1, h2.2.2.2.2.2.2.1⟩

/-- The three ways in which a tick with a valid in-world target is blocked. -/
theorem Update_blocked_cases (c : Consts) (T : OwnerKind) (D : Behaviour) (env : Env)
    (s : St) (time_diff : Nat)
    (hv : env.i_target_isValid = true) (hw : env.i_target_IsInWorld = true)
    (hb : unblocked c env s.owner = false) :
    (s.owner.isAlive = false ∧ Update c T D env s time_diff = (true, s))
      ∨ (s.owner.isAlive = true
          ∧ (hasUnitState s.owner c.UNIT_STAT_NOT_MOVE = true
              ∨ (s.owner.IsNonMeleeSpellCasted = false ∧ env.lostTarget = true))
          ∧ Update c T D env s time_diff
              = (true, { s with owner := _clearUnitStateMove c D s.owner }))
      ∨ (s.owner.isAlive = true ∧ hasUnitState s.owner c.UNIT_STAT_NOT_MOVE = false
          ∧ s.owner.IsNonMeleeSpellCasted = true
          ∧ Update c T D env s time_diff
              = (true, if s.owner.IsStopped then s
                       else { s with owner := env.StopMoving s.owner,
                                     log := s.log ++ [Event.StopMoving] })) := by
  unfold Update
  cases ha : s.owner.isAlive <;> cases hm : hasUnitState s.owner c.UNIT_STAT_NOT_MOVE <;>
    cases hc : s.owner.IsNonMeleeSpellCasted <;> cases hl : env.lostTarget <;>
    cases hs : s.owner.IsStopped <;>
    simp_all [unblocked]

/-- C14. An `Update` call with a valid in-world target that is stopped by a blocking
check returns true, invokes neither the replan nor the arrival hook, and leaves every
generator field (timer, arrival flag, speed-changed flag, path) as it was. When the
alive check stops it, nothing changes at all. When the movement-lock check stops it
(owner alive), or the target-lost check does (owner alive, not locked, not casting), the
only change is that the owner's state loses the bits of the behaviour's moving mask:
every other bit and owner field is as before and nothing is logged. -/
theorem blocked_update_effects (c : Consts) (T : OwnerKind) (D : Behaviour) (env : Env)
    (g : Gen) (o : Owner) (time_diff : Nat)
    (hv : env.i_target_isValid = true) (hw : env.i_target_IsInWorld = true)
    (hb : unblocked c env o = false) (h32 : o.m_state < 2 ^ 32) :
    (Update c T D env { gen := g, owner := o, log := [] } time_diff).1 = true
      ∧ (Update c T D env { gen := g, owner := o, log := [] } time_diff).2.gen = g
      ∧ replanInvoked (Update c T D env { gen := g, owner := o, log := [] } time_diff).2.log
          = false
      ∧ Event.call_reachTarget
          ∉ (Update c T D env { gen := g, owner := o, log := [] } time_diff).2.log
      ∧ (o.isAlive = false →
          (Update c T D env { gen := g, owner := o, log := [] } time_diff).2
            = { gen := g, owner := o, log := [] })
      ∧ ((o.isAlive = true ∧ (hasUnitState o c.UNIT_STAT_NOT_MOVE = true
            ∨ (o.IsNonMeleeSpellCasted = false ∧ env.lostTarget = true))) →
          (Update c T D env { gen := g, owner := o, log := [] } time_diff).2.log = []
            ∧ (Update c T D env { gen := g, owner := o, log := [] } time_diff).2.owner
              = { o with m_state :=
                  (Update c T D env { gen := g, owner := o, log := [] }
                    time_diff).2.owner.m_state }
            ∧ ∀ i, (Update c T D env { gen := g, owner := o, log := [] }
                    time_diff).2.owner.m_state.testBit i
                = (o.m_state.testBit i && !(UNIT_STAT_MOVE c D).testBit i)) := by
  rcases Update_blocked_cases c T D env { gen := g, owner := o, log := [] } time_diff hv hw hb
    with ⟨ha, hu⟩ | ⟨ha, hcase, hu⟩ | ⟨ha, hm, hc, hu⟩
  · simp only [] at ha
    rw [hu]
    simp [replanInvoked, ha]
  · rw [hu]
    refine ⟨rfl, rfl, rfl, by simp, ?_, ?_⟩
    · intro hdead
      simp only [] at ha
      rw [ha] at hdead
      cases hdead
    · intro _
      exact ⟨rfl, rfl, fun i => clearUnitState_testBit o (UNIT_STAT_MOVE c D) h32 i⟩
  · simp only [] at ha hm hc
    rw [hu]
    cases hs : o.IsStopped <;> simp [replanInvoked, ha, hm, hc]

/-- Witness of C14: the stunned chaser (state 0x22008) keeps generator and log and loses
the chase-moving bit only. -/
theorem blocked_update_effects_witness :
    (Update sampleConsts OwnerKind.Creature Behaviour.Chase sampleEnv
        { gen := speedChangedGen, owner := stunnedChaser, log := [] } 100).2
      = { gen := speedChangedGen, owner := { stunnedChaser with m_state := 0x2008 },
          log := [] } :=
  have h := blocked_update_effects sampleConsts OwnerKind.Creature Behaviour.Chase sampleEnv
    speedChangedGen stunnedChaser 100 rfl rfl (by decide) (by decide)
  have h6 := h.2.2.2.2.2 ⟨rfl, Or.inl (by decide)⟩
  by
    have hg := h.2.1
    have hl := h6.1
    have ho := h6.2.1
    have hst : (Update sampleConsts OwnerKind.Creature Behaviour.Chase sampleEnv
        { gen := speedChangedGen, owner := stunnedChaser, log := [] } 100).2.owner.m_state
          = 0x2008 := by decide
    rw [hst] at ho
    cases hu : (Update sampleConsts OwnerKind.Creature Behaviour.Chase sampleEnv
        { gen := speedChangedGen, owner := stunnedChaser, log := [] } 100).2
    rw [hu] at hg hl ho
    simp only at hg hl ho
    rw [hg, hl, ho]

/-- Blocked ticks leave the generator fields as they are. -/
theorem genAfter_blocked (c : Consts) (T : OwnerKind) (D : Behaviour) (bs : List Tick) :
    ∀ g : Gen, (∀ b ∈ bs, unblocked c b.env b.owner = false) → genAfter c T D g bs = g := by
  induction bs with
  | nil => intro g _; rfl
  | cons b bs ih =>
    intro g hb
    simp only [List.mem_cons, forall_eq_or_imp] at hb
    have h1 := (Update_blocked c T D b.env { gen := g, owner := b.owner, log := [] }
      b.time_diff hb.1).1
    simp only [genAfter, UpdateTick]
    rw [h1]
    exact ih g hb.2

/-- Counterexample to C15 as stated: a tick blocked by casting (the owner is halted by
`StopMoving`) is followed by an unblocked tick on which the timer lapses; the
speed-changed flag is clear and the target is within the allowed distance of the owner's
final destination, and that unblocked tick invokes no replan. -/
theorem resume_after_block_counterexample :
    castTick.owner.IsNonMeleeSpellCasted = true
      ∧ unblocked sampleConsts castTick.env castTick.owner = false
      ∧ (UpdateTick sampleConsts OwnerKind.Creature Behaviour.Chase sampleGen castTick).2.log
          = [Event.StopMoving]
      ∧ unblocked sampleConsts resumeTick.env resumeTick.owner = true
      ∧ replanInvoked (UpdateTick sampleConsts OwnerKind.Creature Behaviour.Chase
          (UpdateTick sampleConsts OwnerKind.Creature Behaviour.Chase sampleGen castTick).2.gen
          resumeTick).2.log = false := by
  refine ⟨rfl, by decide, by decide, by decide, ?_⟩
  have hg : (UpdateTick sampleConsts OwnerKind.Creature Behaviour.Chase sampleGen
      castTick).2.gen = sampleGen := by decide
  rw [hg]
  cases hr : replanInvoked (UpdateTick sampleConsts OwnerKind.Creature Behaviour.Chase
      sampleGen resumeTick).2.log
  · rfl
  · exfalso
    have h := (Update_unblocked_replanInvoked sampleConsts OwnerKind.Creature Behaviour.Chase
      resumeTick.env sampleGen resumeTick.owner resumeTick.time_diff (by decide)).1 hr
    rcases h with h | ⟨_, h⟩
    · exact absurd h (by decide)
    · revert h
      norm_num [Update_targetMoved, IsWithinDist2d, distSq2d, GetTypeId, resumeTick,
        sampleEnv, sampleOwner]

/-- A replan that passes its preconditions launches exactly when a destination is
selected and the planner's answer for it carries no no-path flag. -/
theorem setTargetLocation_succeeded_iff (c : Consts) (T : OwnerKind) (D : Behaviour)
    (env : Env) (g : Gen) (o : Owner) (b : Bool)
    (hv : env.i_target_isValid = true) (hw : env.i_target_IsInWorld = true)
    (hm : hasUnitState o c.UNIT_STAT_NOT_MOVE = false) :
    replanSucceeded (_setTargetLocation c T D env { gen := g, owner := o, log := [] } b).log
        = true
      ↔ ∃ dest, _setTargetLocation_destination env g o b = some dest
          ∧ ((env.calculate (g.i_path.getD env.new_PathFinder) dest
                (_setTargetLocation_forceDest c T o)).getPathType &&& c.PATHFIND_NOPATH) = 0 := by
  cases hd : _setTargetLocation_destination env g o b with
  | none =>
    rw [setTargetLocation_suppressed c T D env _ b hd]
    simp [replanSucceeded]
  | some dest =>
    rw [setTargetLocation_planned c T D env _ b dest hv hw hm hd]
    simp only []
    by_cases hn : ((env.calculate (g.i_path.getD env.new_PathFinder) dest
        (_setTargetLocation_forceDest c T o)).getPathType &&& c.PATHFIND_NOPATH) = 0
    · simp [hn, replanSucceeded]
    · have hn2 : ((env.calculate (g.i_path.getD env.new_PathFinder) dest
          (_setTargetLocation_forceDest c T o)).getPathType &&& c.PATHFIND_NOPATH != 0)
          = true := by simpa using hn
      simp only [hn2, if_true]
      constructor
      · intro h
        exfalso
        revert h
        cases g.i_path <;> simp [replanSucceeded]
      · rintro ⟨d, hd2, hz⟩
        cases Option.some.inj hd2
        exact absurd hz hn

/-- An unblocked tick launches a motion exactly when its replan is invoked, selects a
destination and gets a usable path from the planner. -/
theorem Update_unblocked_succeeded_iff (c : Consts) (T : OwnerKind) (D : Behaviour)
    (env : Env) (g : Gen) (o : Owner) (time_diff : Nat) (hu : unblocked c env o = true) :
    replanSucceeded (Update c T D env { gen := g, owner := o, log := [] } time_diff).2.log = true
      ↔ ((g.m_speedChanged
            || ((g.i_recheckDistance.Update time_diff).Passed
                  && Update_targetMoved T env o)) = true
          ∧ ∃ dest, _setTargetLocation_destination env g o
                ((g.i_recheckDistance.Update time_diff).Passed
                  && Update_targetMoved T env o) = some dest
              ∧ ((env.calculate (g.i_path.getD env.new_PathFinder) dest
                    (_setTargetLocation_forceDest c T o)).getPathType
                  &&& c.PATHFIND_NOPATH) = 0) := by
  have hpre := hu
  simp only [unblocked, Bool.and_eq_true, Bool.not_eq_true', Bool.not_eq_eq_eq_not,
    Bool.not_true] at hpre
  obtain ⟨⟨⟨⟨⟨hv, hw⟩, _⟩, hm⟩, _⟩, _⟩ := hpre
  obtain ⟨extra, hlog, hex, _⟩ := Update_arrival_log D env
    (Update_replan c T D env { gen := g, owner := o, log := [] } time_diff)
  rw [Update_unblocked c T D env _ time_diff hu]
  simp only []
  have hsplit : replanSucceeded (Update_arrival D env
      (Update_replan c T D env { gen := g, owner := o, log := [] } time_diff)).log
      = replanSucceeded
          (Update_replan c T D env { gen := g, owner := o, log := [] } time_diff).log := by
    rw [hlog]
    unfold replanSucceeded at hex ⊢
    rw [List.any_append, hex, Bool.or_false]
  rw [hsplit]
  cases hc : (g.m_speedChanged
            || ((g.i_recheckDistance.Update time_diff).Passed
                  && Update_targetMoved T env o))
  · simp only [Bool.or_eq_false_iff] at hc
    rw [Update_replan_idle c T D env { gen := g, owner := o, log := [] } time_diff hc.1 hc.2]
    simp [replanSucceeded]
  · rw [Update_replan_active c T D env { gen := g, owner := o, log := [] } time_diff hc]
    simp only [true_and]
    exact setTargetLocation_succeeded_iff c T D env _ o _ hv hw hm

/-- C15, amended. Ticks that are blocked (by casting, by movement-lock, or otherwise)
leave the generator fields as they are, and the first following unblocked `Update`
invokes the replan exactly when the speed-changed flag is set or the recheck timer
lapses on that tick with a positive displacement test; no `Initialize` or `Reset` is
involved. The tick then continues from the result of that replan, called with the
result of the displacement test on the generator as it was before the blocked ticks,
and a motion is launched exactly when, moreover, the replan selects a destination (is
not suppressed) and the planner answers with a usable path. With the flag clear and
the target not displaced the tick invokes no replan and launches nothing. -/
theorem resume_after_block (c : Consts) (T : OwnerKind) (D : Behaviour) (g : Gen)
    (bs : List Tick) (t : Tick)
    (hbs : ∀ b ∈ bs, unblocked c b.env b.owner = false)
    (hu : unblocked c t.env t.owner = true) :
    genAfter c T D g bs = g
      ∧ (replanInvoked (UpdateTick c T D (genAfter c T D g bs) t).2.log = true
          ↔ (g.m_speedChanged = true
              ∨ ((g.i_recheckDistance.Update t.time_diff).Passed = true
                  ∧ Update_targetMoved T t.env t.owner = true)))
      ∧ (g.m_speedChanged = false → Update_targetMoved T t.env t.owner = false →
          replanInvoked (UpdateTick c T D (genAfter c T D g bs) t).2.log = false
            ∧ replanSucceeded (UpdateTick c T D (genAfter c T D g bs) t).2.log = false
            ∧ (UpdateTick c T D (genAfter c T D g bs) t).2
              = Update_arrival D t.env
                  { gen := { g with i_recheckDistance :=
                      if (g.i_recheckDistance.Update t.time_diff).Passed then
                        (g.i_recheckDistance.Update t.time_diff).Reset 100
                      else g.i_recheckDistance.Update t.time_diff },
                    owner := t.owner, log := [] })
      ∧ ((g.m_speedChanged
            || ((g.i_recheckDistance.Update t.time_diff).Passed
                  && Update_targetMoved T t.env t.owner)) = true →
          (UpdateTick c T D (genAfter c T D g bs) t).2
            = Update_arrival D t.env
                (_setTargetLocation c T D t.env
                  { gen := { g with i_recheckDistance :=
                      if (g.i_recheckDistance.Update t.time_diff).Passed then
                        (g.i_recheckDistance.Update t.time_diff).Reset 100
                      else g.i_recheckDistance.Update t.time_diff },
                    owner := t.owner, log := [] }
                  ((g.i_recheckDistance.Update t.time_diff).Passed
                    && Update_targetMoved T t.env t.owner)))
      ∧ (replanSucceeded (UpdateTick c T D (genAfter c T D g bs) t).2.log = true
          ↔ ((g.m_speedChanged
                || ((g.i_recheckDistance.Update t.time_diff).Passed
                      && Update_targetMoved T t.env t.owner)) = true
              ∧ ∃ dest, _setTargetLocation_destination t.env g t.owner
                    ((g.i_recheckDistance.Update t.time_diff).Passed
                      && Update_targetMoved T t.env t.owner) = some dest
                  ∧ ((t.env.calculate (g.i_path.getD t.env.new_PathFinder) dest
                        (_setTargetLocation_forceDest c T t.owner)).getPathType
                      &&& c.PATHFIND_NOPATH) = 0)) := by
  have hg := genAfter_blocked c T D bs g hbs
  have hiff := Update_unblocked_replanInvoked c T D t.env g t.owner t.time_diff hu
  have hsucc := Update_unblocked_succeeded_iff c T D t.env g t.owner t.time_diff hu
  rw [hg]
  refine ⟨rfl, hiff, ?_, ?_, hsucc⟩
  · intro hs ht
    have hidle : (g.m_speedChanged
        || ((g.i_recheckDistance.Update t.time_diff).Passed
              && Update_targetMoved T t.env t.owner)) = false := by
      rw [hs, ht]; simp
    refine ⟨?_, ?_, ?_⟩
    · cases hr : replanInvoked (UpdateTick c T D g t).2.log
      · rfl
      · rcases hiff.1 hr with h | ⟨_, h⟩
        · rw [hs] at h; cases h
        · rw [ht] at h; cases h
    · cases hr : replanSucceeded (UpdateTick c T D g t).2.log
      · rfl
      · have := (hsucc.1 hr).1
        rw [hidle] at this
        cases this
    · simp only [UpdateTick]
      simp only [Bool.or_eq_false_iff] at hidle
      rw [Update_unblocked c T D t.env _ t.time_diff hu,
        Update_replan_idle c T D t.env { gen := g, owner := t.owner, log := [] } t.time_diff
          hidle.1 hidle.2]
  · intro h
    simp only [UpdateTick]
    rw [Update_unblocked c T D t.env _ t.time_diff hu,
      Update_replan_active c T D t.env { gen := g, owner := t.owner, log := [] } t.time_diff h]

/-- Witness of C15 (amended): after the casting tick the generator is the sample
generator with set speed-changed flag, and the resume tick invokes the replan, which
launches the path to the contact point. -/
theorem resume_after_block_witness :
    genAfter sampleConsts OwnerKind.Creature Behaviour.Chase speedChangedGen [castTick]
        = speedChangedGen
      ∧ replanInvoked (UpdateTick sampleConsts OwnerKind.Creature Behaviour.Chase
          (genAfter sampleConsts OwnerKind.Creature Behaviour.Chase speedChangedGen [castTick])
          resumeTick).2.log = true
      ∧ replanSucceeded (UpdateTick sampleConsts OwnerKind.Creature Behaviour.Chase
          (genAfter sampleConsts OwnerKind.Creature Behaviour.Chase speedChangedGen [castTick])
          resumeTick).2.log = true :=
  have h := resume_after_block sampleConsts OwnerKind.Creature Behaviour.Chase speedChangedGen
    [castTick] resumeTick (by decide) (by decide)
  have htm : ((speedChangedGen.i_recheckDistance.Update resumeTick.time_diff).Passed
      && Update_targetMoved OwnerKind.Creature resumeTick.env resumeTick.owner) = false := by
    norm_num [Update_targetMoved, IsWithinDist2d, distSq2d, GetTypeId, resumeTick,
      sampleEnv, sampleOwner]
  have hd : _setTargetLocation_destination resumeTick.env speedChangedGen resumeTick.owner
      ((speedChangedGen.i_recheckDistance.Update resumeTick.time_diff).Passed
        && Update_targetMoved OwnerKind.Creature resumeTick.env resumeTick.owner)
      = some { x := 9, y := 0, z := 0 } := by
    rw [htm]
    decide
  ⟨h.1, h.2.1.2 (Or.inl rfl), h.2.2.2.2.2 ⟨rfl, { x := 9, y := 0, z := 0 }, hd, by decide⟩⟩

/-- The records a replan adds to the log: its invocation, then possibly a planner
allocation, a query and a launch. -/
theorem setTargetLocation_log_kinds (c : Consts) (T : OwnerKind) (D : Behaviour)
    (env : Env) (s : St) (b : Bool) :
    ∃ extra, (_setTargetLocation c T D env s b).log
        = s.log ++ Event.call_setTargetLocation b :: extra
      ∧ ∀ e ∈ extra, e = Event.new_PathFinder ∨ (∃ d f, e = Event.calculate d f)
          ∨ (∃ p w, e = Event.Launch p w) := by
  cases hpre : (env.i_target_isValid && env.i_target_IsInWorld
            && !hasUnitState s.owner c.UNIT_STAT_NOT_MOVE)
  · rw [setTargetLocation_blocked c T D env s b hpre]
    exact ⟨[], rfl, by simp⟩
  · simp only [Bool.and_eq_true, Bool.not_eq_true', Bool.not_eq_eq_eq_not, Bool.not_true] at hpre
    obtain ⟨⟨hv, hw⟩, hm⟩ := hpre
    cases hd : _setTargetLocation_destination env s.gen s.owner b with
    | none =>
      rw [setTargetLocation_suppressed c T D env s b hd]
      exact ⟨[], rfl, by simp⟩
    | some dest =>
      rw [setTargetLocation_planned c T D env s b dest hv hw hm hd]
      simp only []
      split_ifs
      · refine ⟨[Event.new_PathFinder,
          Event.calculate dest (_setTargetLocation_forceDest c T s.owner)], by simp, ?_⟩
        intro e he
        simp only [List.mem_cons, List.mem_singleton, List.not_mem_nil, or_false] at he
        rcases he with he | he
        · exact Or.inl he
        · exact Or.inr (Or.inl ⟨_, _, he⟩)
      · refine ⟨[Event.calculate dest (_setTargetLocation_forceDest c T s.owner)],
          by simp, ?_⟩
        intro e he
        simp only [List.mem_cons, List.mem_singleton, List.not_mem_nil, or_false] at he
        exact Or.inr (Or.inl ⟨_, _, he⟩)
      · refine ⟨[Event.new_PathFinder,
          Event.calculate dest (_setTargetLocation_forceDest c T s.owner),
          Event.Launch
            (env.calculate (s.gen.i_path.getD env.new_PathFinder) dest
              (_setTargetLocation_forceDest c T s.owner)).getPath
            (EnableWalking T D env)], by simp, ?_⟩
        intro e he
        simp only [List.mem_cons, List.mem_singleton, List.not_mem_nil, or_false] at he
        rcases he with he | he | he
        · exact Or.inl he
        · exact Or.inr (Or.inl ⟨_, _, he⟩)
        · exact Or.inr (Or.inr ⟨_, _, he⟩)
      · refine ⟨[Event.calculate dest (_setTargetLocation_forceDest c T s.owner),
          Event.Launch
            (env.calculate (s.gen.i_path.getD env.new_PathFinder) dest
              (_setTargetLocation_forceDest c T s.owner)).getPath
            (EnableWalking T D env)], by simp, ?_⟩
        intro e he
        simp only [List.mem_cons, List.mem_singleton, List.not_mem_nil, or_false] at he
        rcases he with he | he
        · exact Or.inr (Or.inl ⟨_, _, he⟩)
        · exact Or.inr (Or.inr ⟨_, _, he⟩)

/-- A replan writes the owner's state mask only by adding the behaviour's moving bit. -/
theorem setTargetLocation_m_state (c : Consts) (T : OwnerKind) (D : Behaviour)
    (env : Env) (s : St) (b : Bool) :
    (_setTargetLocation c T D env s b).owner.m_state = s.owner.m_state
      ∨ (_setTargetLocation c T D env s b).owner.m_state
          = s.owner.m_state ||| UNIT_STAT_MOVE c D := by
  cases hpre : (env.i_target_isValid && env.i_target_IsInWorld
            && !hasUnitState s.owner c.UNIT_STAT_NOT_MOVE)
  · rw [setTargetLocation_blocked c T D env s b hpre]
    exact Or.inl rfl
  · simp only [Bool.and_eq_true, Bool.not_eq_true', Bool.not_eq_eq_eq_not, Bool.not_true] at hpre
    obtain ⟨⟨hv, hw⟩, hm⟩ := hpre
    cases hd : _setTargetLocation_destination env s.gen s.owner b with
    | none =>
      rw [setTargetLocation_suppressed c T D env s b hd]
      exact Or.inl rfl
    | some dest =>
      rw [setTargetLocation_planned c T D env s b dest hv hw hm hd]
      simp only []
      split_ifs <;> first | exact Or.inl rfl | exact Or.inr rfl

/-- Bits set at the entry of a replan are set at its exit. -/
theorem setTargetLocation_keeps_bits (c : Consts) (T : OwnerKind) (D : Behaviour)
    (env : Env) (s : St) (b : Bool) (i : Nat) (h : s.owner.m_state.testBit i = true) :
    (_setTargetLocation c T D env s b).owner.m_state.testBit i = true := by
  rcases setTargetLocation_m_state c T D env s b with h1 | h1
  · rw [h1, h]
  · rw [h1, Nat.testBit_or, h]
    rfl

/-- A launch in the log of a replan is either one that was already there or one made
with walk mode `EnableWalking()`. -/
theorem setTargetLocation_mem_Launch_walk (c : Consts) (T : OwnerKind) (D : Behaviour)
    (env : Env) (s : St) (b : Bool) (path : List Vector3) (walk : Bool)
    (h : Event.Launch path walk ∈ (_setTargetLocation c T D env s b).log) :
    Event.Launch path walk ∈ s.log ∨ walk = EnableWalking T D env := by
  cases hpre : (env.i_target_isValid && env.i_target_IsInWorld
            && !hasUnitState s.owner c.UNIT_STAT_NOT_MOVE)
  · rw [setTargetLocation_blocked c T D env s b hpre] at h
    simp at h
    exact Or.inl h
  · simp only [Bool.and_eq_true, Bool.not_eq_true', Bool.not_eq_eq_eq_not, Bool.not_true] at hpre
    obtain ⟨⟨hv, hw⟩, hm⟩ := hpre
    cases hd : _setTargetLocation_destination env s.gen s.owner b with
    | none =>
      rw [setTargetLocation_suppressed c T D env s b hd] at h
      simp at h
      exact Or.inl h
    | some dest =>
      rw [setTargetLocation_planned c T D env s b dest hv hw hm hd] at h
      simp only [] at h
      split_ifs at h <;> simp at h
      all_goals first
        | exact Or.inl h
        | (rcases h with h | h
           · exact Or.inl h
           · exact Or.inr h.2)

/-- Counterexample to C16 as stated: `Initialize` of the chase of a stunned
player-controlled owner only adds the chase-active bit and records the invocation of the
replan, which returns at line 36: no `SetWalk` call is made and no motion is launched,
so nothing sets the gait to running. For a creature in the same state the log starts
with `SetWalk(false, false)`. -/
theorem chase_initialize_counterexample :
    Chase_Initialize sampleConsts OwnerKind.Player sampleEnv
        { gen := sampleGen, owner := stunnedOwner, log := [] }
      = { gen := sampleGen, owner := { stunnedOwner with m_state := 0x2008 },
          log := [Event.call_setTargetLocation true] }
      ∧ Event.SetWalk false false
          ∉ (Chase_Initialize sampleConsts OwnerKind.Player sampleEnv
              { gen := sampleGen, owner := stunnedOwner, log := [] }).log
      ∧ replanSucceeded (Chase_Initialize sampleConsts OwnerKind.Player sampleEnv
              { gen := sampleGen, owner := stunnedOwner, log := [] }).log = false
      ∧ (Chase_Initialize sampleConsts OwnerKind.Creature sampleEnv
              { gen := sampleGen, owner := stunnedOwner, log := [] }).log
        = [Event.SetWalk false false, Event.call_setTargetLocation true] := by
  decide

/-- C16, amended. `Initialize` of the chase adds the chase-active bit (every bit of the
chase mask is set afterwards) and invokes the replan, with hint true only, for both owner
kinds. For an autonomously controlled (Creature) owner it first sets the gait to running
by `owner.SetWalk(false, false)` (the first record of the log, applied to the owner
before the bit is added), whether or not the replan launches. For a player-controlled
owner no `SetWalk` call is made on the owner: the gait is selected only by the launch of
the replan, whose walk flag is false (run) for both owner kinds, and when the replan
launches nothing the owner is the old one with the chase-active bit added and no gait
has been set. `Reset` of the chase and `Reset` of the follow are the corresponding
`Initialize`. -/
theorem chase_initialize_effects (c : Consts) (T : OwnerKind) (env : Env) (g : Gen)
    (o : Owner) (s : St) :
    (∀ b, Event.call_setTargetLocation b
          ∈ (Chase_Initialize c T env { gen := g, owner := o, log := [] }).log ↔ b = true)
      ∧ (∀ i, c.UNIT_STAT_CHASE.testBit i = true →
          (Chase_Initialize c T env { gen := g, owner := o, log := [] }).owner.m_state.testBit i
            = true)
      ∧ Chase_Initialize c OwnerKind.Creature env { gen := g, owner := o, log := [] }
          = _setTargetLocation c OwnerKind.Creature Behaviour.Chase env
              { gen := g, owner := addUnitState (env.SetWalk o false false) c.UNIT_STAT_CHASE,
                log := [Event.SetWalk false false] } true
      ∧ (Chase_Initialize c OwnerKind.Creature env { gen := g, owner := o, log := [] }).log.head?
          = some (Event.SetWalk false false)
      ∧ Chase_Initialize c OwnerKind.Player env { gen := g, owner := o, log := [] }
          = _setTargetLocation c OwnerKind.Player Behaviour.Chase env
              { gen := g, owner := addUnitState o c.UNIT_STAT_CHASE, log := [] } true
      ∧ (∀ a b, Event.SetWalk a b
          ∉ (Chase_Initialize c OwnerKind.Player env { gen := g, owner := o, log := [] }).log)
      ∧ Chase_Reset c T env s = Chase_Initialize c T env s
      ∧ Follow_Reset c T env s = Follow_Initialize c T env s
      ∧ (∀ p w, Event.Launch p w
            ∈ (Chase_Initialize c T env { gen := g, owner := o, log := [] }).log → w = false)
      ∧ (replanSucceeded
            (Chase_Initialize c OwnerKind.Player env { gen := g, owner := o, log := [] }).log
            = false →
          (Chase_Initialize c OwnerKind.Player env { gen := g, owner := o, log := [] }).owner
              = addUnitState o c.UNIT_STAT_CHASE
            ∧ ∀ e ∈ (Chase_Initialize c OwnerKind.Player env
                      { gen := g, owner := o, log := [] }).log,
                (∃ b, e = Event.call_setTargetLocation b) ∨ e = Event.new_PathFinder
                  ∨ (∃ d f, e = Event.calculate d f))
      ∧ (replanSucceeded
            (Chase_Initialize c OwnerKind.Creature env { gen := g, owner := o, log := [] }).log
            = false →
          (Chase_Initialize c OwnerKind.Creature env { gen := g, owner := o, log := [] }).owner
              = addUnitState (env.SetWalk o false false) c.UNIT_STAT_CHASE) := by
  refine ⟨?_, ?_, rfl, ?_, rfl, ?_, rfl, rfl, ?_, ?_, ?_⟩
  · intro b
    cases T <;> simp [Chase_Initialize, setTargetLocation_mem_call]
  · intro i hi
    cases T <;>
      (simp only [Chase_Initialize]
       apply setTargetLocation_keeps_bits
       simp [addUnitState, Nat.testBit_or, hi])
  · obtain ⟨extra, hlog, _⟩ := setTargetLocation_log_kinds c OwnerKind.Creature Behaviour.Chase
      env { gen := g, owner := addUnitState (env.SetWalk o false false) c.UNIT_STAT_CHASE,
            log := [Event.SetWalk false false] } true
    simp only [Chase_Initialize, List.nil_append]
    rw [hlog]
    rfl
  · intro a b hmem
    obtain ⟨extra, hlog, hk⟩ := setTargetLocation_log_kinds c OwnerKind.Player Behaviour.Chase
      env { gen := g, owner := addUnitState o c.UNIT_STAT_CHASE, log := [] } true
    simp only [Chase_Initialize] at hmem
    rw [hlog] at hmem
    simp only [List.nil_append, List.mem_cons] at hmem
    rcases hmem with h | h
    · cases h
    · rcases hk _ h with h2 | ⟨_, _, h2⟩ | ⟨_, _, h2⟩ <;> cases h2
  · intro p w hmem
    cases T
    · simp only [Chase_Initialize] at hmem
      rcases setTargetLocation_mem_Launch_walk _ _ _ _ _ _ _ _ hmem with h | h
      · simp at h
      · rw [h]; rfl
    · simp only [Chase_Initialize, List.nil_append] at hmem
      rcases setTargetLocation_mem_Launch_walk _ _ _ _ _ _ _ _ hmem with h | h
      · simp at h
      · rw [h]; rfl
  · intro hns
    simp only [Chase_Initialize] at hns ⊢
    refine ⟨(setTargetLocation_not_succeeded c OwnerKind.Player Behaviour.Chase env _ _ hns).2.2,
      ?_⟩
    obtain ⟨extra, hlog, hk⟩ := setTargetLocation_log_kinds c OwnerKind.Player Behaviour.Chase
      env { gen := g, owner := addUnitState o c.UNIT_STAT_CHASE, log := [] } true
    intro e he
    rw [hlog] at he hns
    simp only [List.nil_append, List.mem_cons] at he
    rcases he with he | he
    · exact Or.inl ⟨_, he⟩
    · rcases hk e he with h | h | ⟨p, w, h⟩
      · exact Or.inr (Or.inl h)
      · exact Or.inr (Or.inr h)
      · exfalso
        have hex : replanSucceeded ([] ++ Event.call_setTargetLocation true :: extra) = true := by
          unfold replanSucceeded
          rw [List.any_eq_true]
          exact ⟨e, by simp [he], by rw [h]⟩
        rw [hex] at hns
        cases hns
  · intro hns
    simp only [Chase_Initialize, List.nil_append] at hns ⊢
    exact (setTargetLocation_not_succeeded c OwnerKind.Creature Behaviour.Chase env _ _ hns).2.2

/-- Witness of C16 (amended): after `Initialize` of the chase of the sample creature
the chase-active bit (bit 13) is set; for the stunned player-controlled owner, whose
replan launches nothing, the owner is the old one with the chase-active bit added. -/
theorem chase_initialize_effects_witness :
    (Chase_Initialize sampleConsts OwnerKind.Creature sampleEnv
        { gen := sampleGen, owner := followOwner, log := [] }).owner.m_state.testBit 13 = true
      ∧ (Chase_Initialize sampleConsts OwnerKind.Player sampleEnv
          { gen := sampleGen, owner := stunnedOwner, log := [] }).owner
        = addUnitState stunnedOwner sampleConsts.UNIT_STAT_CHASE :=
  ⟨(chase_initialize_effects sampleConsts OwnerKind.Creature sampleEnv sampleGen followOwner
      sampleSt).2.1 13 (by decide),
    ((chase_initialize_effects sampleConsts OwnerKind.Player sampleEnv sampleGen stunnedOwner
      sampleSt).2.2.2.2.2.2.2.2.2.1 (by decide)).1⟩

/-- C17. The follow speed sync refreshes the owner's run, walk and swim speeds (in that
order, each forced) exactly when the owner is a Creature that is a pet, the target
handle is valid and the target's guid is the guid of the pet's owner; in every other
case, and for every player-controlled owner, it changes nothing. `Initialize` of the
follow adds the follow-active bit, runs the speed sync on the owner so marked, and then
invokes the replan, with hint true only. -/
theorem follow_speed_sync (c : Consts) (T : OwnerKind) (env : Env) (g : Gen) (o : Owner) :
    ((T = OwnerKind.Creature ∧ o.IsPet = true ∧ env.i_target_isValid = true
          ∧ env.target_GetObjectGuid = o.GetOwnerGuid) →
        _updateSpeed T env { gen := g, owner := o, log := [] }
          = { gen := g,
              owner := env.UpdateSpeed
                (env.UpdateSpeed (env.UpdateSpeed o UnitMoveType.MOVE_RUN true)
                  UnitMoveType.MOVE_WALK true) UnitMoveType.MOVE_SWIM true,
              log := [Event.UpdateSpeed UnitMoveType.MOVE_RUN true,
                      Event.UpdateSpeed UnitMoveType.MOVE_WALK true,
                      Event.UpdateSpeed UnitMoveType.MOVE_SWIM true] })
      ∧ (¬(T = OwnerKind.Creature ∧ o.IsPet = true ∧ env.i_target_isValid = true
            ∧ env.target_GetObjectGuid = o.GetOwnerGuid) →
        _updateSpeed T env { gen := g, owner := o, log := [] }
          = { gen := g, owner := o, log := [] })
      ∧ _updateSpeed OwnerKind.Player env { gen := g, owner := o, log := [] }
          = { gen := g, owner := o, log := [] }
      ∧ ((∃ m f, Event.UpdateSpeed m f
            ∈ (_updateSpeed T env { gen := g, owner := o, log := [] }).log)
          ↔ (T = OwnerKind.Creature ∧ o.IsPet = true ∧ env.i_target_isValid = true
              ∧ env.target_GetObjectGuid = o.GetOwnerGuid))
      ∧ Follow_Initialize c T env { gen := g, owner := o, log := [] }
          = _setTargetLocation c T Behaviour.Follow env
              (_updateSpeed T env
                { gen := g, owner := addUnitState o c.UNIT_STAT_FOLLOW, log := [] }) true
      ∧ (addUnitState o c.UNIT_STAT_FOLLOW).m_state = o.m_state ||| c.UNIT_STAT_FOLLOW
      ∧ (∀ b, Event.call_setTargetLocation b
            ∈ (Follow_Initialize c T env { gen := g, owner := o, log := [] }).log ↔ b = true)
      ∧ ((∃ m f, Event.UpdateSpeed m f
            ∈ (Follow_Initialize c T env { gen := g, owner := o, log := [] }).log)
          ↔ (T = OwnerKind.Creature ∧ o.IsPet = true ∧ env.i_target_isValid = true
              ∧ env.target_GetObjectGuid = o.GetOwnerGuid)) := by
  have heq := updateSpeed_eq T env { gen := g, owner := o, log := [] }
  have heq2 := updateSpeed_eq T env
    { gen := g, owner := addUnitState o c.UNIT_STAT_FOLLOW, log := [] }
  simp only [List.nil_append] at heq heq2
  have hsame : (addUnitState o c.UNIT_STAT_FOLLOW).IsPet = o.IsPet
      ∧ (addUnitState o c.UNIT_STAT_FOLLOW).GetOwnerGuid = o.GetOwnerGuid := ⟨rfl, rfl⟩
  rw [hsame.1, hsame.2] at heq2
  refine ⟨?_, ?_, rfl, ?_, rfl, rfl, ?_, ?_⟩
  · intro h
    rw [heq, if_pos h]
  · intro h
    rw [heq, if_neg h]
  · rw [heq]
    split_ifs with h
    · simp [h]
    · simp [h]
  · intro b
    simp only [Follow_Initialize]
    rw [setTargetLocation_mem_call, heq2]
    split_ifs <;> simp
  · obtain ⟨extra, hlog, hk⟩ := setTargetLocation_log_kinds c T Behaviour.Follow env
      (_updateSpeed T env { gen := g, owner := addUnitState o c.UNIT_STAT_FOLLOW, log := [] })
      true
    simp only [Follow_Initialize]
    rw [hlog, heq2]
    have hex : ∀ m f, Event.UpdateSpeed m f ∉ Event.call_setTargetLocation true :: extra := by
      intro m f hmem
      simp only [List.mem_cons] at hmem
      rcases hmem with h | h
      · cases h
      · rcases hk _ h with h2 | ⟨_, _, h2⟩ | ⟨_, _, h2⟩ <;> cases h2
    split_ifs with h
    · simp only [h, and_self, iff_true]
      exact ⟨UnitMoveType.MOVE_RUN, true, by simp⟩
    · simp only [h, iff_false, not_exists, List.mem_append, List.not_mem_nil, false_or]
      exact hex

/-- Witness of C17: the pet of the sample target gets its three speeds refreshed. -/
theorem follow_speed_sync_witness :
    (_updateSpeed OwnerKind.Creature sampleEnv { gen := followGen, owner := petOwner, log := [] }).log
      = [Event.UpdateSpeed UnitMoveType.MOVE_RUN true,
         Event.UpdateSpeed UnitMoveType.MOVE_WALK true,
         Event.UpdateSpeed UnitMoveType.MOVE_SWIM true] :=
  congrArg St.log
    ((follow_speed_sync sampleConsts OwnerKind.Creature sampleEnv followGen petOwner).1
      ⟨rfl, rfl, rfl, rfl⟩)

/-- A replan leaves the follow angle as it is. -/
theorem setTargetLocation_angle (c : Consts) (T : OwnerKind) (D : Behaviour)
    (env : Env) (s : St) (b : Bool) :
    (_setTargetLocation c T D env s b).gen.i_angle = s.gen.i_angle := by
  cases hpre : (env.i_target_isValid && env.i_target_IsInWorld
            && !hasUnitState s.owner c.UNIT_STAT_NOT_MOVE)
  · rw [setTargetLocation_blocked c T D env s b hpre]
  · simp only [Bool.and_eq_true, Bool.not_eq_true', Bool.not_eq_eq_eq_not, Bool.not_true] at hpre
    obtain ⟨⟨hv, hw⟩, hm⟩ := hpre
    cases hd : _setTargetLocation_destination env s.gen s.owner b with
    | none => rw [setTargetLocation_suppressed c T D env s b hd]
    | some dest =>
      rw [setTargetLocation_planned c T D env s b dest hv hw hm hd]
      simp only []
      split_ifs <;> rfl

/-- The replan step of a tick on an empty log records only replan records, and leaves
the follow angle as it is. -/
theorem Update_replan_kinds (c : Consts) (T : OwnerKind) (D : Behaviour) (env : Env)
    (g : Gen) (o : Owner) (time_diff : Nat) :
    (Update_replan c T D env { gen := g, owner := o, log := [] } time_diff).gen.i_angle
        = g.i_angle
      ∧ ∀ e ∈ (Update_replan c T D env { gen := g, owner := o, log := [] } time_diff).log,
          (∃ b, e = Event.call_setTargetLocation b) ∨ e = Event.new_PathFinder
            ∨ (∃ d f, e = Event.calculate d f) ∨ (∃ p w, e = Event.Launch p w) := by
  unfold Update_replan
  simp only []
  split_ifs
  all_goals first
    | (refine ⟨setTargetLocation_angle c T D env _ _, ?_⟩
       obtain ⟨extra, hlog, hk⟩ := setTargetLocation_log_kinds c T D env
         { gen := { g with i_recheckDistance := _ }, owner := o, log := [] } _
       intro e he
       rw [hlog] at he
       simp only [List.nil_append, List.mem_cons] at he
       rcases he with he | he
       · exact Or.inl ⟨_, he⟩
       · exact Or.inr (hk e he))
    | exact ⟨rfl, by simp⟩

/-- The facing correction is recorded by the arrival step exactly when the motion is
finished, the follow angle is zero and the target is not in the front arc. -/
theorem Update_arrival_mem_SetInFront (D : Behaviour) (env : Env) (s : St) :
    Event.SetInFront ∈ (Update_arrival D env s).log
      ↔ (Event.SetInFront ∈ s.log
          ∨ (s.owner.movespline.Finalized = true ∧ s.gen.i_angle = 0 ∧ env.HasInArc = false)) := by
  rcases s with ⟨⟨p, off, ang, t, r, sc⟩, o, l⟩
  unfold Update_arrival _reachTarget
  cases D <;> cases hf : o.movespline.Finalized <;> cases r <;>
    cases ha : (ang == 0 && !env.HasInArc) <;>
    cases hc : env.CanReachWithMeleeAttack <;>
    simp_all

/-- With the motion not finished the arrival step does nothing. -/
theorem Update_arrival_not_finished (D : Behaviour) (env : Env) (s : St)
    (h : s.owner.movespline.Finalized = false) : Update_arrival D env s = s := by
  unfold Update_arrival
  simp [h]

/-- With the motion finished, the arrival step is the facing correction followed by the
debounced hook. -/
theorem Update_arrival_finished (D : Behaviour) (env : Env) (s : St)
    (h : s.owner.movespline.Finalized = true) :
    Update_arrival D env s
      = (if s.gen.i_targetReached then
          (if (s.gen.i_angle == 0 && !env.HasInArc) then
            { s with owner := env.SetInFront s.owner, log := s.log ++ [Event.SetInFront] }
           else s)
         else
          _reachTarget D env
            (if (s.gen.i_angle == 0 && !env.HasInArc) then
              { gen := { s.gen with i_targetReached := true },
                owner := env.SetInFront s.owner, log := s.log ++ [Event.SetInFront] }
             else { s with gen := { s.gen with i_targetReached := true } })) := by
  unfold Update_arrival
  cases ha : (s.gen.i_angle == 0 && !env.HasInArc) <;> cases hr : s.gen.i_targetReached <;>
    simp [h, ha, hr]

/-- The owner after the arrival step with the motion finished: turned by `SetInFront`
when the angle is zero and the target is not in the arc, then handed to `Attack` when
the chase hook runs and the target is in reach. -/
theorem Update_arrival_owner (D : Behaviour) (env : Env) (s : St)
    (h : s.owner.movespline.Finalized = true) :
    (Update_arrival D env s).owner
      = (if (!s.gen.i_targetReached && decide (D = Behaviour.Chase)
              && env.CanReachWithMeleeAttack) then
          env.Attack (if (s.gen.i_angle == 0 && !env.HasInArc) then env.SetInFront s.owner
                      else s.owner)
         else (if (s.gen.i_angle == 0 && !env.HasInArc) then env.SetInFront s.owner
               else s.owner)) := by
  rw [Update_arrival_finished D env s h]
  unfold _reachTarget
  cases D <;> cases ha : (s.gen.i_angle == 0 && !env.HasInArc) <;>
    cases hr : s.gen.i_targetReached <;> cases hc : env.CanReachWithMeleeAttack <;>
    simp

/-- C18. In an unblocked `Update` whose test at line 141 (after the replan step of the
tick) sees the motion as finished, the owner's facing is snapped to the target, that is
`SetInFront` is called and the owner becomes the one that call returns, exactly when
the follow angle is zero and the owner does not have the target in its 0.01 arc,
whatever the arrival flag is; the hook then runs on the owner so turned when the
arrival flag is clear. When that test sees the motion as not finished, the tick ends in
the state the replan step left: no facing correction, no arrival hook, no attack, and
the arrival flag as the replan step left it (as it was at the call unless a replan
succeeded). -/
theorem facing_correction (c : Consts) (T : OwnerKind) (D : Behaviour) (env : Env)
    (g : Gen) (o : Owner) (time_diff : Nat) (hu : unblocked c env o = true) :
    ((Update_replan c T D env { gen := g, owner := o, log := [] }
          time_diff).owner.movespline.Finalized = true →
        (Event.SetInFront ∈ (Update c T D env { gen := g, owner := o, log := [] } time_diff).2.log
          ↔ (g.i_angle = 0 ∧ env.HasInArc = false))
        ∧ (Update c T D env { gen := g, owner := o, log := [] } time_diff).2.owner
            = (if (!(Update_replan c T D env { gen := g, owner := o, log := [] }
                      time_diff).gen.i_targetReached
                    && decide (D = Behaviour.Chase) && env.CanReachWithMeleeAttack) then
                env.Attack
                  (if (g.i_angle == 0 && !env.HasInArc) then
                    env.SetInFront
                      (Update_replan c T D env { gen := g, owner := o, log := [] }
                        time_diff).owner
                   else (Update_replan c T D env { gen := g, owner := o, log := [] }
                          time_diff).owner)
               else
                (if (g.i_angle == 0 && !env.HasInArc) then
                  env.SetInFront
                    (Update_replan c T D env { gen := g, owner := o, log := [] }
                      time_diff).owner
                 else (Update_replan c T D env { gen := g, owner := o, log := [] }
                        time_diff).owner))
        ∧ ((Update_replan c T D env { gen := g, owner := o, log := [] }
              time_diff).gen.i_targetReached = true →
            (Update c T D env { gen := g, owner := o, log := [] } time_diff).2
              = (if (g.i_angle == 0 && !env.HasInArc) then
                  { gen := (Update_replan c T D env { gen := g, owner := o, log := [] }
                      time_diff).gen,
                    owner := env.SetInFront
                      (Update_replan c T D env { gen := g, owner := o, log := [] }
                        time_diff).owner,
                    log := (Update_replan c T D env { gen := g, owner := o, log := [] }
                      time_diff).log ++ [Event.SetInFront] }
                 else Update_replan c T D env { gen := g, owner := o, log := [] } time_diff)))
      ∧ ((Update_replan c T D env { gen := g, owner := o, log := [] }
            time_diff).owner.movespline.Finalized = false →
          (Update c T D env { gen := g, owner := o, log := [] } time_diff).2
              = Update_replan c T D env { gen := g, owner := o, log := [] } time_diff
            ∧ Event.SetInFront
                ∉ (Update c T D env { gen := g, owner := o, log := [] } time_diff).2.log
            ∧ Event.call_reachTarget
                ∉ (Update c T D env { gen := g, owner := o, log := [] } time_diff).2.log
            ∧ Event.Attack
                ∉ (Update c T D env { gen := g, owner := o, log := [] } time_diff).2.log
            ∧ (replanSucceeded
                  (Update c T D env { gen := g, owner := o, log := [] } time_diff).2.log = false
                → (Update c T D env { gen := g, owner := o, log := [] }
                    time_diff).2.gen.i_targetReached = g.i_targetReached)) := by
  obtain ⟨hang, hk⟩ := Update_replan_kinds c T D env g o time_diff
  have hno : ∀ e, e = Event.SetInFront ∨ e = Event.call_reachTarget ∨ e = Event.Attack →
      e ∉ (Update_replan c T D env { gen := g, owner := o, log := [] } time_diff).log := by
    intro e he hmem
    rcases hk e hmem with ⟨_, h⟩ | h | ⟨_, _, h⟩ | ⟨_, _, h⟩ <;>
      rcases he with h2 | h2 | h2 <;> rw [h2] at h <;> cases h
  rw [Update_unblocked c T D env _ time_diff hu]
  simp only []
  constructor
  · intro hf
    refine ⟨?_, ?_, ?_⟩
    · rw [Update_arrival_mem_SetInFront, hang, hf]
      constructor
      · rintro (h | h)
        · exact absurd h (hno _ (Or.inl rfl))
        · exact h.2
      · intro h
        exact Or.inr ⟨rfl, h⟩
    · rw [Update_arrival_owner D env _ hf, hang]
    · intro hr
      rw [Update_arrival_finished D env _ hf, hang, hr]
      simp only [if_true]
  · intro hf
    rw [Update_arrival_not_finished D env _ hf]
    refine ⟨rfl, hno _ (Or.inl rfl), hno _ (Or.inr (Or.inl rfl)), hno _ (Or.inr (Or.inr rfl)), ?_⟩
    intro hs
    exact (Update_replan_not_succeeded c T D env _ time_diff hs).1

/-- Witness of C18: with the arrival flag already set, the motion finished, angle zero
and the target out of the front arc, the tick still calls `SetInFront`, and the owner,
which faced direction 2, faces direction 0 afterwards. -/
theorem facing_correction_witness :
    Event.SetInFront ∈ (Update sampleConsts OwnerKind.Creature Behaviour.Chase askewEnv
        { gen := reachedGen, owner := askewOwner, log := [] } 10).2.log
      ∧ (Update sampleConsts OwnerKind.Creature Behaviour.Chase askewEnv
          { gen := reachedGen, owner := askewOwner, log := [] } 10).2.owner
        = { askewOwner with GetOrientation := 0 } :=
  have h := (facing_correction sampleConsts OwnerKind.Creature Behaviour.Chase askewEnv
    reachedGen askewOwner 10 (by decide)).1 (by decide)
  ⟨h.1.2 ⟨rfl, rfl⟩, h.2.1.trans (by decide)⟩

/-- The arrival step of the chase records an attack for each hook invocation when the
owner can reach the target, and none otherwise. -/
theorem Update_arrival_attack (env : Env) (s : St) :
    ∃ extra, (Update_arrival Behaviour.Chase env s).log = s.log ++ extra
      ∧ extra.count Event.Attack
          = (if env.CanReachWithMeleeAttack then extra.count Event.call_reachTarget else 0) := by
  unfold Update_arrival _reachTarget
  cases hf : s.owner.movespline.Finalized <;> cases hr : s.gen.i_targetReached <;>
    cases ha : (s.gen.i_angle == 0 && !env.HasInArc) <;>
    cases hc : env.CanReachWithMeleeAttack <;>
    simp_all [List.count_cons]

/-- In every chase tick, the attacks recorded are the hook invocations recorded when the
owner can reach the target, and none otherwise. -/
theorem UpdateTick_attack_count (c : Consts) (T : OwnerKind) (g : Gen) (t : Tick) :
    (UpdateTick c T Behaviour.Chase g t).2.log.count Event.Attack
      = (if t.env.CanReachWithMeleeAttack then
          (UpdateTick c T Behaviour.Chase g t).2.log.count Event.call_reachTarget
         else 0) := by
  cases hu : unblocked c t.env t.owner
  · have hb := (Update_blocked c T Behaviour.Chase t.env { gen := g, owner := t.owner, log := [] }
      t.time_diff hu).2
    simp only [UpdateTick]
    rcases hb with hl | hl <;> rw [hl] <;> simp
  · simp only [UpdateTick]
    rw [Update_unblocked c T Behaviour.Chase t.env _ t.time_diff hu]
    simp only []
    obtain ⟨extra, hlog, hcount⟩ := Update_arrival_attack t.env
      (Update_replan c T Behaviour.Chase t.env { gen := g, owner := t.owner, log := [] }
        t.time_diff)
    obtain ⟨_, hk⟩ := Update_replan_kinds c T Behaviour.Chase t.env g t.owner t.time_diff
    have h1 : (Update_replan c T Behaviour.Chase t.env { gen := g, owner := t.owner, log := [] }
        t.time_diff).log.count Event.Attack = 0 := by
      rw [List.count_eq_zero]
      intro hmem
      rcases hk _ hmem with ⟨_, h⟩ | h | ⟨_, _, h⟩ | ⟨_, _, h⟩ <;> cases h
    have h2 := Update_replan_count_reach c T Behaviour.Chase t.env
      { gen := g, owner := t.owner, log := [] } t.time_diff
    simp only [List.count_nil] at h2
    rw [hlog, List.count_append, List.count_append, h1, h2, hcount]
    simp

/-- Attacks per tick of a chase run, from the hook invocations per tick. -/
theorem runUpdates_attack (c : Consts) (T : OwnerKind) (ticks : List Tick) :
    ∀ g : Gen,
      (runUpdates c T Behaviour.Chase g ticks).map (fun r => r.log.count Event.Attack)
        = List.zipWith (fun t n => if t.env.CanReachWithMeleeAttack then n else 0) ticks
            ((runUpdates c T Behaviour.Chase g ticks).map
              (fun r => r.log.count Event.call_reachTarget)) := by
  induction ticks with
  | nil => intro g; rfl
  | cons t ts ih =>
    intro g
    simp only [runUpdates, List.map_cons, List.zipWith_cons_cons]
    rw [ih, UpdateTick_attack_count]

/-- With the target in reach during every tick, attacks and hook invocations coincide. -/
theorem runUpdates_attack_in_reach (c : Consts) (T : OwnerKind) (ticks : List Tick) :
    ∀ g : Gen, (∀ t ∈ ticks, t.env.CanReachWithMeleeAttack = true) →
      (runUpdates c T Behaviour.Chase g ticks).map (fun r => r.log.count Event.Attack)
        = (runUpdates c T Behaviour.Chase g ticks).map
            (fun r => r.log.count Event.call_reachTarget) := by
  induction ticks with
  | nil => intro g _; rfl
  | cons t ts ih =>
    intro g hr
    simp only [List.mem_cons, forall_eq_or_imp] at hr
    simp only [runUpdates, List.map_cons]
    rw [ih _ hr.2, UpdateTick_attack_count, hr.1]
    simp

/-- Some entry of the mapped list is true exactly when the predicate holds somewhere. -/
theorem any_map_id (rs : List TickRecord) :
    (rs.map (fun r => r.finished)).any id = rs.any (fun r => r.finished) := by
  induction rs with
  | nil => rfl
  | cons r rs ih => simp [List.any_cons, ih]

/-- C19. The arrival hook of the chase calls `Attack` exactly when the owner can reach
the target with a melee attack and does nothing else. Over any sequence of `Update`
calls of a chase that starts with the arrival flag clear and in which no replan
succeeds, the attacks per tick are: one in the first tick that sees the motion as
finished if the owner can reach the target in that tick, none in any other tick; so
with the target in reach, `Attack` is called exactly once if the motion is ever seen
finished, however many calls follow. -/
theorem chase_attack_once (c : Consts) (T : OwnerKind) (env : Env) (s : St) (g : Gen)
    (ticks : List Tick) (h0 : g.i_targetReached = false)
    (hno : ∀ r ∈ runUpdates c T Behaviour.Chase g ticks, replanSucceeded r.log = false) :
    _reachTarget Behaviour.Chase env s
        = (if env.CanReachWithMeleeAttack then
            { s with owner := env.Attack s.owner,
                     log := s.log ++ [Event.call_reachTarget, Event.Attack] }
           else { s with log := s.log ++ [Event.call_reachTarget] })
      ∧ (runUpdates c T Behaviour.Chase g ticks).map (fun r => r.log.count Event.Attack)
          = List.zipWith (fun t n => if t.env.CanReachWithMeleeAttack then n else 0) ticks
              (markFirst ((runUpdates c T Behaviour.Chase g ticks).map (fun r => r.finished)))
      ∧ ((∀ t ∈ ticks, t.env.CanReachWithMeleeAttack = true) →
          (runUpdates c T Behaviour.Chase g ticks).map (fun r => r.log.count Event.Attack)
              = markFirst ((runUpdates c T Behaviour.Chase g ticks).map (fun r => r.finished))
            ∧ ((runUpdates c T Behaviour.Chase g ticks).map
                (fun r => r.log.count Event.Attack)).sum
              = (if (runUpdates c T Behaviour.Chase g ticks).any (fun r => r.finished)
                 then 1 else 0)) := by
  have hm := runUpdates_markFirst c T Behaviour.Chase ticks g h0 hno
  refine ⟨?_, ?_, ?_⟩
  · unfold _reachTarget
    cases hc : env.CanReachWithMeleeAttack <;> simp
  · rw [runUpdates_attack, hm]
  · intro hr
    have ha := runUpdates_attack_in_reach c T ticks g hr
    refine ⟨ha.trans hm, ?_⟩
    rw [ha, hm, markFirst_sum, any_map_id]

/-- Witness of C19: on the four sample ticks of the chase, with the target in reach,
`Attack` is called in the third tick and in no other. -/
theorem chase_attack_once_witness :
    (runUpdates sampleConsts OwnerKind.Creature Behaviour.Chase sampleGen sampleTicks).map
        (fun r => r.log.count Event.Attack) = [0, 0, 1, 0] := by
  have h := (chase_attack_once sampleConsts OwnerKind.Creature sampleEnv sampleSt sampleGen
    sampleTicks rfl (by decide)).2.2 (by decide)
  have hf : (runUpdates sampleConsts OwnerKind.Creature Behaviour.Chase sampleGen
      sampleTicks).map (fun r => r.finished) = [false, false, true, true] := by decide
  rw [h.1, hf]
  rfl

/-- Counterexample to C20 as stated: the pet of unit 7, with the follow-active bit set,
queries the planner with `forceDest = true` in a follow replan whose target is unit 8,
not its owner, and also in a chase replan. -/
theorem forceDest_counterexample :
    petOwner.GetOwnerGuid ≠ strangerEnv.target_GetObjectGuid
      ∧ Event.calculate origin true
          ∈ (_setTargetLocation sampleConsts OwnerKind.Creature Behaviour.Follow strangerEnv
              { gen := followGen, owner := petOwner, log := [] } true).log
      ∧ Event.calculate { x := 9, y := 0, z := 0 } true
          ∈ (_setTargetLocation sampleConsts OwnerKind.Creature Behaviour.Chase sampleEnv
              { gen := sampleGen, owner := petOwner, log := [] } true).log := by
  refine ⟨by decide, ?_, by decide⟩
  rw [setTargetLocation_mem_calculate]
  refine ⟨rfl, rfl, by decide, ?_, by decide⟩
  norm_num [_setTargetLocation_destination, followGen, sampleGen, strangerEnv, sampleEnv,
    petOwner, sampleOwner]

/-- C20, amended. The planner is queried with `forceDest = true` exactly when the owner
is a Creature that is a pet and has the follow-active state bit; neither the pursued
target nor the behaviour that replans enters the test. Every query of a
player-controlled owner, of a creature that is not a pet and of a pet without the
follow-active bit is made with `forceDest = false`. -/
theorem forceDest_policy (c : Consts) (T : OwnerKind) (D : Behaviour) (env : Env)
    (g : Gen) (o : Owner) (b : Bool) :
    (_setTargetLocation_forceDest c T o = true
        ↔ (T = OwnerKind.Creature ∧ o.IsPet = true
            ∧ hasUnitState o c.UNIT_STAT_FOLLOW = true))
      ∧ (∀ d f, Event.calculate d f
            ∈ (_setTargetLocation c T D env { gen := g, owner := o, log := [] } b).log
          → (f = true ↔ (T = OwnerKind.Creature ∧ o.IsPet = true
                ∧ hasUnitState o c.UNIT_STAT_FOLLOW = true)))
      ∧ (∀ d f, Event.calculate d f
            ∈ (_setTargetLocation c OwnerKind.Player D env
                { gen := g, owner := o, log := [] } b).log
          → f = false) := by
  have hiff : ∀ T2 : OwnerKind, _setTargetLocation_forceDest c T2 o = true
      ↔ (T2 = OwnerKind.Creature ∧ o.IsPet = true
          ∧ hasUnitState o c.UNIT_STAT_FOLLOW = true) := by
    intro T2
    unfold _setTargetLocation_forceDest
    cases T2 <;> simp [GetTypeId]
  refine ⟨hiff T, ?_, ?_⟩
  · intro d f hmem
    rw [setTargetLocation_mem_calculate] at hmem
    rw [hmem.2.2.2.2]
    exact hiff T
  · intro d f hmem
    rw [setTargetLocation_mem_calculate] at hmem
    rw [hmem.2.2.2.2]
    cases hf : _setTargetLocation_forceDest c OwnerKind.Player o
    · rfl
    · have := (hiff OwnerKind.Player).1 hf
      cases this.1

/-- Witness of C20 (amended): for the sample pet, which has the follow-active bit, the
local `forceDest` is true. -/
theorem forceDest_policy_witness :
    _setTargetLocation_forceDest sampleConsts OwnerKind.Creature petOwner = true :=
  (forceDest_policy sampleConsts OwnerKind.Creature Behaviour.Chase strangerEnv sampleGen
    petOwner true).1.2 ⟨rfl, rfl, by decide⟩

end TargetedMovement
